import Mathlib

/-!
Mosaic display: vsync aggregation, hotplug fan-in, tile presentation.

A shallow embedding of `common/core/mosaicdisplay.cpp` (namespace `hwcomposer`).

* Objects the C++ code reaches through pointers (`NativeDisplay *`, `HwcLayer *`) live in
  heaps indexed by an address (`Ptr`); the controller holds addresses, as the source does.
* Fixed-width integers are `Nat`/`Int` values with the wrap-around written out.
* Calls into upstream callbacks and descriptor closes are recorded in trace fields
  (`vsync_calls`, `hotplug_calls`, `closed_fds`), appended in program order.
-/

namespace hwcomposer

/-! ## Machine integers -/

/-- Value of an integer after conversion to `int32_t` (two's complement). -/
def toInt32 (x : Int) : Int := (x + 2 ^ 31) % 2 ^ 32 - 2 ^ 31

/-- Value of an integer after conversion to `int64_t` (two's complement). -/
def toInt64 (x : Int) : Int := (x + 2 ^ 63) % 2 ^ 64 - 2 ^ 63

/-- Value of an integer after conversion to `uint32_t`. -/
def toUInt32 (x : Int) : Nat := (x % 2 ^ 32).toNat

/-- An address (`NativeDisplay *`, `HwcLayer *`, a callback object). -/
abbrev Ptr := Nat

/-- Power mode `kOn` of `hwcdefs.h` (the header is outside the sources; only equality with
this constant is ever tested). -/
def kOn : Nat := 2

/-! ## External objects -/

/-- Observable state of one physical output, as seen through the `NativeDisplay` interface
(`IsConnected`, `Width`, `Height`, `GetLogicalIndex`, `GetDisplayAttribute`) together with
what the controller last pushed into it. -/
structure NativeDisplay where
  connected : Bool
  width : Nat
  height : Nat
  dpix : Int
  dpiy : Int
  refresh : Int
  logical_index : Nat
  active_config : Nat
  power_mode : Nat
  vsync_enabled : Bool

/-- Rectangle `HwcRect<int>`. -/
structure HwcRect where
  left : Int
  top : Int
  right : Int
  bottom : Int
deriving DecidableEq

/-- Modelled from the spec: `HwcLayer` is declared in `hwclayer.h`, which is not among the
sources. This is the part of it the tile worker reads (`GetDisplayFrame`) and writes (the
five setters called in `HandleRoutine`); as the spec has it ("for each retained layer, sets:
left/right device constraint, left/right source constraint, and a remaining displays
count"), each setter stores its argument in the field of its name. -/
structure HwcLayer where
  display_frame_ : HwcRect
  left_constraint_ : Int
  right_constraint_ : Int
  left_source_constraint_ : Int
  right_source_constraint_ : Int
  total_displays_ : Nat
deriving DecidableEq

/-- One invocation of the upstream `VsyncCallback::Callback(display, timestamp)`. -/
structure VsyncCall where
  callback : Ptr
  display : Nat
  timestamp : Int
deriving DecidableEq

/-- One invocation of the upstream `HotPlugCallback::Callback(display, connected)`. -/
structure HotPlugCall where
  callback : Ptr
  display : Nat
  connected : Bool
deriving DecidableEq

/-! ## Tile worker (`MosaicDisplay::MosaicDisplayPresenter`) -/

/-- Members of `MosaicDisplayPresenter`. `cevent_` counts completion signals raised and not
yet consumed; `running` is the worker context of `HWCThread`; `closed_fds` and `submitted`
trace `close(fd)` and `native_display_->Present(layers_, ...)`. -/
structure MosaicDisplayPresenter where
  native_display_ : Ptr
  left_constraint_ : Int
  total_displays_ : Int
  id_ : Int
  source_layers_ : List Ptr
  callback_ : Option Ptr
  layers_ : List Ptr
  release_fence_ : Int
  cevent_ : Nat
  running : Bool
  closed_fds : List Int
  submitted : List (List Ptr)

/-! ## Controller (`MosaicDisplay`) -/

/-- Members of `MosaicDisplay`, preceded by the two heaps its pointers refer to and followed
by the traces (`retired`: workers erased from the registry, in their final state). `dpix_`, `dpiy_`, `refresh_` hold the 32-bit pattern of the member:
`+=` and `/=` by the unsigned count `avg` act on the pattern in the same way for a signed and
an unsigned 32-bit member. -/
structure MosaicDisplay where
  displays : Ptr → NativeDisplay
  layer_heap : Ptr → HwcLayer
  physical_displays_ : List Ptr
  mosaic_presenters_ : List (Ptr × MosaicDisplayPresenter)
  refresh_callback_ : Option Ptr
  vsync_callback_ : Option Ptr
  hotplug_callback_ : Option Ptr
  dpix_ : Nat
  dpiy_ : Nat
  refresh_ : Nat
  power_mode_ : Nat
  display_id_ : Nat
  width_ : Nat
  height_ : Nat
  config_ : Nat
  vsync_counter_ : Nat
  vsync_divisor_ : Nat
  preferred_display_index_ : Nat
  vsync_timestamp_ : Int
  enable_vsync_ : Bool
  connected_ : Bool
  pending_vsync_ : Bool
  update_connected_displays_ : Bool
  vsync_calls : List VsyncCall
  hotplug_calls : List HotPlugCall
  retired : List (Ptr × MosaicDisplayPresenter)

namespace MosaicDisplayPresenter

/-- Modelled from the spec: the member initialisers of `MosaicDisplayPresenter` are in
`mosaicdisplay.h`, which is not among the sources. A new worker holds no layers, no release
fence ("if one was held") and no pending completion signal. -/
def fresh : MosaicDisplayPresenter :=
  { native_display_ := 0, left_constraint_ := 0, total_displays_ := 0, id_ := 0,
    source_layers_ := [], callback_ := none, layers_ := [], release_fence_ := -1,
    cevent_ := 0, running := false, closed_fds := [], submitted := [] }

/-- `MosaicDisplayPresenter::Initialize` (lines 513-518): starts the worker context; the
result is `true` whether or not `InitWorker` succeeded. -/
def Initialize (m : MosaicDisplayPresenter) : MosaicDisplayPresenter :=
  { m with running := true }

/-- `MosaicDisplayPresenter::ClearLayers` (lines 535-542). -/
def ClearLayers (m : MosaicDisplayPresenter) : MosaicDisplayPresenter :=
  { m with layers_ := [] }

/-- The test of lines 562-563: the layer is skipped. -/
def excluded (frame_Rect : HwcRect) (left_constraint_ right_constraint : Int) : Bool :=
  decide (frame_Rect.right < left_constraint_) || decide (frame_Rect.left > right_constraint)

/-- Loop of `HandleRoutine` (lines 559-576) over the source layers still to be visited;
carries `layers_` and the layer heap. -/
def HandleRoutine.loop (left_constraint_ right_constraint : Int) (dlconstraint drconstraint : Nat)
    (total_displays : Int) :
    List Ptr → List Ptr → (Ptr → HwcLayer) → List Ptr × (Ptr → HwcLayer)
  | [], layers_, heap => (layers_, heap)
  | source_layer :: rest, layers_, heap =>
    let frame_Rect := (heap source_layer).display_frame_
    if excluded frame_Rect left_constraint_ right_constraint = true then
      HandleRoutine.loop left_constraint_ right_constraint dlconstraint drconstraint
        total_displays rest layers_ heap
    else
      let layer := source_layer
      let l := heap layer
      let l1 := { l with
        left_constraint_ := toInt32 dlconstraint
        right_constraint_ := toInt32 drconstraint
        left_source_constraint_ := left_constraint_
        right_source_constraint_ := right_constraint
        total_displays_ := toUInt32 total_displays }
      HandleRoutine.loop left_constraint_ right_constraint dlconstraint drconstraint
        total_displays rest (layers_ ++ [layer]) (Function.update heap layer l1)

/-- `int32_t right_constraint = left_constraint_ + native_display_->Width()` (line 547): the
sum is formed in 32-bit unsigned arithmetic and stored in an `int32_t`. -/
def right_constraint (left_constraint_ : Int) (width : Nat) : Int :=
  toInt32 (left_constraint_ + width)

/-- `MosaicDisplayPresenter::HandleRoutine` (lines 544-592). `nd` is the output behind
`native_display_`, `heap` the layer heap, `out_fence` the value the output's `Present` leaves
in the local `fence`. Returns the worker and the layer heap. -/
def HandleRoutine (m : MosaicDisplayPresenter) (nd : NativeDisplay) (heap : Ptr → HwcLayer)
    (out_fence : Int) : MosaicDisplayPresenter × (Ptr → HwcLayer) :=
  let m1 := m.ClearLayers
  let right_constraint := right_constraint m1.left_constraint_ nd.width
  let dlconstraint := (nd.logical_index * nd.width) % 2 ^ 32
  let drconstraint := (dlconstraint + nd.width) % 2 ^ 32
  let (layers_, heap1) :=
    HandleRoutine.loop m1.left_constraint_ right_constraint dlconstraint drconstraint
      (toInt32 (m1.total_displays_ - m1.id_)) m1.source_layers_ m1.layers_ heap
  let m2 : MosaicDisplayPresenter := { m1 with layers_ := layers_ }
  if m2.layers_.isEmpty = true then (m2, heap1)
  else
    let fence := out_fence
    let m3 : MosaicDisplayPresenter := { m2 with submitted := m2.submitted ++ [m2.layers_] }
    let m4 : MosaicDisplayPresenter :=
      if m3.release_fence_ > 0 then { m3 with closed_fds := m3.closed_fds ++ [m3.release_fence_] }
      else m3
    ({ m4 with release_fence_ := fence, cevent_ := m4.cevent_ + 1 }, heap1)

/-- `MosaicDisplayPresenter::Present` (lines 520-533). -/
def Present (m : MosaicDisplayPresenter) (display : Ptr) (nd : NativeDisplay)
    (left_constraint total_displays display_id : Int) (source_layers : List Ptr)
    (call_back : Option Ptr) (heap : Ptr → HwcLayer) (out_fence : Int) :
    MosaicDisplayPresenter × (Ptr → HwcLayer) :=
  let m1 := { m with
    native_display_ := display
    left_constraint_ := left_constraint
    total_displays_ := total_displays
    id_ := display_id
    source_layers_ := source_layers
    callback_ := call_back }
  HandleRoutine m1 nd heap out_fence

/-- `MosaicDisplayPresenter::ExitThread` (lines 594-599). -/
def ExitThread (m : MosaicDisplayPresenter) : MosaicDisplayPresenter :=
  let m1 : MosaicDisplayPresenter := { m with running := false }
  let m2 := m1.ClearLayers
  if m2.release_fence_ > 0 then { m2 with closed_fds := m2.closed_fds ++ [m2.release_fence_] }
  else m2

/-- Modelled from the spec: `HWCEvent` and `FDHandler` are not among the sources. `Wait`
(lines 601-612) "blocks until the completion signal fires": with a signal pending it consumes
it and returns; with none pending the poll without timeout never returns (`none`). -/
def Wait (m : MosaicDisplayPresenter) : Option MosaicDisplayPresenter :=
  if m.cevent_ > 0 then some { m with cevent_ := 0 } else none

end MosaicDisplayPresenter

namespace MosaicDisplay

/-- The outputs a `for (uint32_t i = 0; i < size; i++) physical_displays_.at(i)` loop visits,
with `uint32_t size = physical_displays_.size()`. -/
def iterated (s : MosaicDisplay) : List Ptr :=
  s.physical_displays_.take (s.physical_displays_.length % 2 ^ 32)

/-- `MosaicDisplay::VSyncUpdate` (lines 295-312). -/
def VSyncUpdate (s : MosaicDisplay) (timestamp : Int) : MosaicDisplay :=
  match s.vsync_callback_ with
  | some cb =>
    if s.enable_vsync_ = true ∧ s.vsync_divisor_ > 0 then
      let counter := (s.vsync_counter_ + (2 ^ 32 - 1)) % 2 ^ 32
      let ts := toInt64 (s.vsync_timestamp_ + timestamp)
      if counter = 0 then
        let avg := Int.tdiv ts (s.vsync_divisor_ : Int)
        { s with
          vsync_calls := s.vsync_calls ++ [⟨cb, s.display_id_, avg⟩]
          vsync_counter_ := s.vsync_divisor_
          vsync_timestamp_ := 0
          pending_vsync_ := false }
      else
        { s with
          vsync_counter_ := counter
          vsync_timestamp_ := ts
          pending_vsync_ := true }
    else s
  | none => s

/-- Consecutive `VSyncUpdate` calls, one per reported timestamp. -/
def VSyncUpdates (s : MosaicDisplay) (ts : List Int) : MosaicDisplay :=
  ts.foldl VSyncUpdate s

/-- Loop of `MosaicDisplay::IsConnected` (lines 88-93): stop at the first connected output. -/
def IsConnected.loop (displays : Ptr → NativeDisplay) : List Ptr → Bool
  | [] => false
  | p :: rest => if (displays p).connected = true then true else IsConnected.loop displays rest

/-- `MosaicDisplay::IsConnected` (lines 85-96). -/
def IsConnected (s : MosaicDisplay) : Bool :=
  IsConnected.loop s.displays s.iterated

/-- Apply a member call to every output a fan-out loop visits, in order. -/
def fanOut (f : NativeDisplay → NativeDisplay) (ps : List Ptr) (displays : Ptr → NativeDisplay) :
    Ptr → NativeDisplay :=
  ps.foldl (fun h p => Function.update h p (f (h p))) displays

/-- `MosaicDisplay::VSyncControl` (lines 283-293). -/
def VSyncControl (s : MosaicDisplay) (enabled : Bool) : MosaicDisplay :=
  if s.enable_vsync_ = enabled then s
  else
    { s with
      enable_vsync_ := enabled
      vsync_timestamp_ := 0
      displays := fanOut (fun d => { d with vsync_enabled := enabled }) s.iterated s.displays }

/-- Counting loop of `MosaicDisplay::HotPlugUpdate` (lines 323-329). -/
def HotPlugUpdate.count (displays : Ptr → NativeDisplay) (ps : List Ptr) : Nat :=
  ps.foldl (fun total p => if (displays p).connected = true then (total + 1) % 2 ^ 32 else total) 0

/-- Lines 331-338 of `HotPlugUpdate`: flush of a pending vsync cycle. -/
def HotPlugUpdate.flush (s : MosaicDisplay) (total_connected_displays : Nat) : MosaicDisplay :=
  match s.vsync_callback_ with
  | some cb =>
    if s.enable_vsync_ = true ∧ s.pending_vsync_ = true ∧ total_connected_displays > 0 then
      if s.vsync_counter_ = total_connected_displays then
        let avg := Int.tdiv s.vsync_timestamp_ (total_connected_displays : Int)
        { s with
          vsync_timestamp_ := avg
          vsync_calls := s.vsync_calls ++ [⟨cb, s.display_id_, avg⟩]
          pending_vsync_ := false }
      else s
    else s
  | none => s

/-- Lines 343-357 of `HotPlugUpdate`: upstream hotplug notification. -/
def HotPlugUpdate.notify (s : MosaicDisplay) (connected : Bool)
    (total_connected_displays : Nat) : MosaicDisplay :=
  if s.connected_ = connected then s
  else
    match s.hotplug_callback_ with
    | some cb =>
      if connected = false ∧ s.connected_ = true ∧ total_connected_displays ≠ 0 then s
      else
        { s with
          connected_ := connected
          hotplug_calls := s.hotplug_calls ++ [⟨cb, s.display_id_, connected⟩] }
    | none => s

/-- `MosaicDisplay::HotPlugUpdate` (lines 320-358). -/
def HotPlugUpdate (s : MosaicDisplay) (connected : Bool) : MosaicDisplay :=
  let s1 := { s with update_connected_displays_ := true }
  let total_connected_displays := HotPlugUpdate.count s1.displays s1.iterated
  let s2 := HotPlugUpdate.flush s1 total_connected_displays
  let s3 := { s2 with
    vsync_counter_ := total_connected_displays
    vsync_divisor_ := total_connected_displays }
  HotPlugUpdate.notify s3 connected total_connected_displays

/-- Second loop of `MosaicDisplay::SetActiveConfig` (lines 125-144); returns the state and
the local `avg`. `previous_refresh` is the local of line 124, which the loop never assigns.-/
def SetActiveConfig.loop : List Ptr → Nat → Nat → MosaicDisplay → MosaicDisplay × Nat
  | [], _, avg, s => (s, avg)
  | p :: rest, i, avg, s =>
    let previous_refresh : Int := 0
    let d := s.displays p
    let dpix := toInt32 d.dpix
    let dpiy := toInt32 d.dpiy
    let refresh := toInt32 d.refresh
    let s1 := { s with
      height_ := max s.height_ d.height
      width_ := (s.width_ + d.width) % 2 ^ 32
      dpix_ := (s.dpix_ + toUInt32 dpix) % 2 ^ 32
      dpiy_ := (s.dpiy_ + toUInt32 dpiy) % 2 ^ 32
      refresh_ := (s.refresh_ + toUInt32 refresh) % 2 ^ 32
      preferred_display_index_ :=
        if previous_refresh < refresh then i else s.preferred_display_index_ }
    SetActiveConfig.loop rest ((i + 1) % 2 ^ 32) ((avg + 1) % 2 ^ 32) s1

/-- `MosaicDisplay::SetActiveConfig` (lines 114-153); returns the new state and the result. -/
def SetActiveConfig (s : MosaicDisplay) (config : Nat) : MosaicDisplay × Bool :=
  let s1 := { s with config_ := config, width_ := 0, height_ := 0 }
  let s2 := { s1 with
    displays := fanOut (fun d => { d with active_config := s1.config_ }) s1.iterated s1.displays }
  let (s3, avg) := SetActiveConfig.loop s2.iterated 0 0 s2
  if avg > 0 then
    ({ s3 with
        refresh_ := s3.refresh_ / avg
        dpix_ := s3.dpix_ / avg
        dpiy_ := s3.dpiy_ / avg }, true)
  else (s3, true)

/-- What the constructor (lines 68-75) stores in `physical_displays_`: the first
`uint32_t size = displays.size()` entries of its argument. -/
def constructed_displays (displays : List Ptr) : List Ptr :=
  displays.take (displays.length % 2 ^ 32)

/-- `mosaic_presenters_.emplace(nd, MosaicDisplayPresenter())` on the registry, a `std::map`
kept in key order; an existing key keeps its worker. -/
def registryEmplace (k : Ptr) (v : MosaicDisplayPresenter) :
    List (Ptr × MosaicDisplayPresenter) → List (Ptr × MosaicDisplayPresenter)
  | [] => [(k, v)]
  | (k1, v1) :: rest =>
    if k < k1 then (k, v) :: (k1, v1) :: rest
    else if k = k1 then (k1, v1) :: rest
    else (k1, v1) :: registryEmplace k v rest

/-- A member call on `mosaic_presenters_.at(nd)`. -/
def registryAt (k : Ptr) (f : MosaicDisplayPresenter → MosaicDisplayPresenter)
    (m : List (Ptr × MosaicDisplayPresenter)) : List (Ptr × MosaicDisplayPresenter) :=
  m.map (fun e => if e.1 = k then (e.1, f e.2) else e)

/-- `mosaic_presenters_.erase(nd)`. -/
def registryErase (k : Ptr) (m : List (Ptr × MosaicDisplayPresenter)) :
    List (Ptr × MosaicDisplayPresenter) :=
  m.filter (fun e => e.1 ≠ k)

/-- Registry reconciliation loop of `MosaicDisplay::Present` (lines 185-208), over the outputs
still to be visited, with the loop index `i`. -/
def Present.reconcile : List Ptr → Nat → MosaicDisplay → MosaicDisplay
  | [], _, s => s
  | nd :: rest, i, s =>
    let previous_refresh : Int := 0
    if (s.displays nd).connected = true then
      let s1 : MosaicDisplay :=
        if (s.mosaic_presenters_.lookup nd).isNone = true then
          { s with
            mosaic_presenters_ :=
              registryAt nd MosaicDisplayPresenter.Initialize
                (registryEmplace nd MosaicDisplayPresenter.fresh s.mosaic_presenters_) }
        else s
      let refresh := toInt32 (s1.displays nd).refresh
      let s2 : MosaicDisplay :=
        if previous_refresh < refresh then { s1 with preferred_display_index_ := i } else s1
      Present.reconcile rest ((i + 1) % 2 ^ 32) s2
    else
      let s1 : MosaicDisplay :=
        if (s.mosaic_presenters_.lookup nd).isSome = true then
          let exited := registryAt nd MosaicDisplayPresenter.ExitThread s.mosaic_presenters_
          { s with
            mosaic_presenters_ := registryErase nd exited
            retired := s.retired ++ exited.filter (fun e => e.1 = nd) }
        else s
      Present.reconcile rest ((i + 1) % 2 ^ 32) s1

/-- One `mdp.Present(display, left_constraint, size, display_id, &source_layers, call_back)`
issued by `MosaicDisplay::Present`. -/
structure TileCall where
  display : Ptr
  left_constraint : Int
  total_displays : Int
  display_id : Int
  source_layers : List Ptr
deriving DecidableEq

/-- Dispatch loop of `MosaicDisplay::Present` (lines 217-228) over the registry entries still
to be visited. `none`: a `Wait` never returns. Otherwise the registry, the layer heap and the
tile calls issued, in order. -/
def Present.loop (displays : Ptr → NativeDisplay) (size : Int) (source_layers : List Ptr)
    (call_back : Option Ptr) (fence_of : Ptr → Int) :
    List (Ptr × MosaicDisplayPresenter) → Int → Int → (Ptr → HwcLayer) →
      Option (List (Ptr × MosaicDisplayPresenter) × (Ptr → HwcLayer) × List TileCall)
  | [], _, _, heap => some ([], heap, [])
  | (display, mdp) :: rest, left_constraint, display_id, heap =>
    let r := mdp.Present display (displays display) left_constraint size display_id
      source_layers call_back heap (fence_of display)
    let call : TileCall := ⟨display, left_constraint, size, display_id, source_layers⟩
    let left_constraint1 := toInt32 (left_constraint + (displays display).width)
    let display_id1 := toInt32 (display_id + 1)
    match r.1.Wait with
    | none => none
    | some mdp1 =>
      if display_id1 > 0 then some ((display, mdp1) :: rest, r.2, [call])
      else
        match Present.loop displays size source_layers call_back fence_of rest
            left_constraint1 display_id1 r.2 with
        | none => none
        | some (reg, heap1, calls) => some ((display, mdp1) :: reg, heap1, call :: calls)

/-- Outcome of a `MosaicDisplay::Present` call that returns: the state, the value written to
`*retire_fence` (if any), the result, and the tile calls issued. -/
structure PresentResult where
  state : MosaicDisplay
  retire_fence : Option Int
  ret : Bool
  dispatched : List TileCall

/-- `MosaicDisplay::Present` (lines 173-234). `fence_of d` is the fence output `d` hands back
if it is presented to in this call. `none`: the call never returns. -/
def Present (s : MosaicDisplay) (source_layers : List Ptr) (call_back : Option Ptr)
    (fence_of : Ptr → Int) : Option PresentResult :=
  if s.power_mode_ ≠ kOn then some ⟨s, none, true, []⟩
  else
    let s1 : MosaicDisplay :=
      if s.update_connected_displays_ = true then
        { Present.reconcile s.iterated 0 s with update_connected_displays_ := false }
      else s
    let size : Nat := s1.mosaic_presenters_.length % 2 ^ 32
    match Present.loop s1.displays (toInt32 (size : Int)) source_layers call_back fence_of
        s1.mosaic_presenters_ 0 0 s1.layer_heap with
    | none => none
    | some (reg, heap, calls) =>
      some ⟨{ s1 with mosaic_presenters_ := reg, layer_heap := heap }, some (-1), true, calls⟩

/-! ## Runs of the vsync/hotplug fan-in -/

/-- A call into the controller, or a change of the outputs made by the environment. -/
inductive Call where
  | HotPlugUpdate (connected : Bool)
  | VSyncUpdate (timestamp : Int)
  | VSyncControl (enabled : Bool)
  | outputs (displays : Ptr → NativeDisplay)

/-- Effect of one call. -/
def step (s : MosaicDisplay) : Call → MosaicDisplay
  | .HotPlugUpdate connected => s.HotPlugUpdate connected
  | .VSyncUpdate timestamp => s.VSyncUpdate timestamp
  | .VSyncControl enabled => s.VSyncControl enabled
  | .outputs displays => { s with displays := displays }

/-- Effect of a sequence of calls. -/
def run (s : MosaicDisplay) (cs : List Call) : MosaicDisplay :=
  cs.foldl step s

/-- Number of owned outputs that report connected. -/
def connectedCount (s : MosaicDisplay) : Nat :=
  s.physical_displays_.countP (fun p => (s.displays p).connected)

/-- Connected count seen by the most recent `HotPlugUpdate` of a run (`o` before the run). -/
def lastObserved : MosaicDisplay → List Call → Option Nat → Option Nat
  | _, [], o => o
  | s, .HotPlugUpdate connected :: cs, _ =>
    lastObserved (step s (.HotPlugUpdate connected)) cs (some (connectedCount s))
  | s, c :: cs, o => lastObserved (step s c) cs o

/-! ## Concrete states used to exercise the definitions -/

/-- An output with the given connection state, size and refresh rate (96 dpi). -/
def output (connected : Bool) (width height : Nat) (refresh : Int) : NativeDisplay :=
  { connected := connected, width := width, height := height, dpix := 96, dpiy := 96,
    refresh := refresh, logical_index := 0, active_config := 0, power_mode := kOn,
    vsync_enabled := false }

/-- A layer whose display frame spans `[left, right]` horizontally. -/
def layer (left right : Int) : HwcLayer :=
  { display_frame_ := ⟨left, 0, right, 100⟩, left_constraint_ := 0, right_constraint_ := 0,
    left_source_constraint_ := 0, right_source_constraint_ := 0, total_displays_ := 0 }

/-- A controller owning `outputs`, with no callback registered, vsync disabled, power off,
an empty registry and all counters zero. -/
def idle (displays : Ptr → NativeDisplay) (layer_heap : Ptr → HwcLayer) (outputs : List Ptr) :
    MosaicDisplay :=
  { displays := displays, layer_heap := layer_heap,
    physical_displays_ := constructed_displays outputs, mosaic_presenters_ := [],
    refresh_callback_ := none, vsync_callback_ := none, hotplug_callback_ := none,
    dpix_ := 0, dpiy_ := 0, refresh_ := 0, power_mode_ := 0, display_id_ := 0, width_ := 0,
    height_ := 0, config_ := 0, vsync_counter_ := 0, vsync_divisor_ := 0,
    preferred_display_index_ := 0, vsync_timestamp_ := 0, enable_vsync_ := false,
    connected_ := false, pending_vsync_ := false, update_connected_displays_ := true,
    vsync_calls := [], hotplug_calls := [], retired := [] }

/-- Three connected 1920x1080 outputs at addresses 1, 2, 3; vsync enabled with upstream
callback 7 for logical display 5; a cycle of three about to start. -/
def threeOutputs : MosaicDisplay :=
  { idle (fun _ => output true 1920 1080 60) (fun _ => layer 0 100) [1, 2, 3] with
    vsync_callback_ := some 7, display_id_ := 5, enable_vsync_ := true, connected_ := true,
    vsync_counter_ := 3, vsync_divisor_ := 3 }

/-- Outputs 1 (1920x1080, 60 Hz) and 2 (1280x720, 60 Hz), both connected. -/
def twoOutputsHeap (p : Ptr) : NativeDisplay :=
  if p = 1 then output true 1920 1080 60 else output true 1280 720 60

/-- The state `threeOutputs` after two of the three outputs have reported (timestamps 10
and 20) and outputs 2 and 3 have then dropped: one output is left connected. -/
def oneLeft : MosaicDisplay :=
  { threeOutputs.VSyncUpdates [10, 20] with
    displays := fun p => if p = 1 then output true 1920 1080 60 else output false 1920 1080 60 }

/-- Outputs 1 and 2 of `twoOutputsHeap`, powered on, with one started worker each in the
registry and no topology change pending; every layer spans `[0, 3000]`. -/
def twoTiles : MosaicDisplay :=
  { idle twoOutputsHeap (fun _ => layer 0 3000) [1, 2] with
    power_mode_ := kOn, update_connected_displays_ := false,
    mosaic_presenters_ :=
      [(1, MosaicDisplayPresenter.fresh.Initialize), (2, MosaicDisplayPresenter.fresh.Initialize)] }

/-- Outputs 1 and 2 of `twoOutputsHeap` with vsync enabled and upstream callbacks registered
(vsync callback 7, hotplug callback 8, logical display 5); no hotplug seen yet. -/
def armed : MosaicDisplay :=
  { idle twoOutputsHeap (fun _ => layer 0 3000) [1, 2] with
    vsync_callback_ := some 7, hotplug_callback_ := some 8, display_id_ := 5,
    enable_vsync_ := true }

/-- The invariant of the vsync aggregation state; `o` is the connected count seen by the
most recent `HotPlugUpdate`, if there was one. -/
def VsyncInv (s : MosaicDisplay) (o : Option Nat) : Prop :=
  s.physical_displays_.length < 2 ^ 32 ∧
  s.vsync_divisor_ = o.getD 0 ∧
  s.vsync_divisor_ < 2 ^ 32 ∧
  s.vsync_counter_ ≤ s.vsync_divisor_ ∧
  (0 < s.vsync_divisor_ → 0 < s.vsync_counter_)

/-! ## Name and attribute queries -/

/-- Attribute selector `HWCDisplayAttribute` of `hwcdefs.h` (the header is outside the
sources): the five enumerators `GetDisplayAttribute` names, and any other value. -/
inductive HWCDisplayAttribute where
  | kWidth
  | kHeight
  | kRefreshRate
  | kDpiX
  | kDpiY
  | other (raw : Int)
deriving DecidableEq

/-- `MosaicDisplay::GetDisplayAttribute` (lines 442-468); returns the state it leaves, the
`int32_t` stored through `value`, and the result. -/
def GetDisplayAttribute (s : MosaicDisplay) (_config : Nat) (attrib : HWCDisplayAttribute) :
    MosaicDisplay × Int × Bool :=
  let status := true
  match attrib with
  | .kWidth => (s, toInt32 s.width_, status)
  | .kHeight => (s, toInt32 s.height_, status)
  | .kRefreshRate => (s, toInt32 s.refresh_, status)
  | .kDpiX => (s, toInt32 s.dpix_, status)
  | .kDpiY => (s, toInt32 s.dpiy_, status)
  | .other _ => (s, -1, false)

/-- The text `stream << "Mosaic"` of `GetDisplayName`. -/
def display_name : String := "Mosaic"

/-- Buffer after `strncpy(dest, src, n)`: exactly `n` bytes are written, the first of them
from `src` and, if `src` is shorter than `n`, NUL bytes after it. -/
def strncpy (dest src : List Char) (n : Nat) : List Char :=
  src.take n ++ List.replicate (n - src.length) (Char.ofNat 0) ++ dest.drop n

/-- `MosaicDisplay::GetDisplayName` (lines 479-492). `size` is `*size` on entry, `name` the
buffer (`none` for a null pointer). Returns `*size` on exit, the buffer and the result. -/
def GetDisplayName (size : Nat) (name : Option (List Char)) :
    Nat × Option (List Char) × Bool :=
  let string := display_name
  let length := string.length
  match name with
  | none => (length % 2 ^ 32, none, true)
  | some buffer =>
    let size1 := min ((length - 1) % 2 ^ 32) size
    (size1, some (strncpy buffer string.toList size1), true)

/-! ## Reconciliation and frames -/

/-- The controller at line 211 of `Present` (power on): the registry reconciled with the
connection state if a topology change was pending. -/
def Present.reconciled (s : MosaicDisplay) : MosaicDisplay :=
  if s.update_connected_displays_ = true then
    { Present.reconcile s.iterated 0 s with update_connected_displays_ := false }
  else s

/-- Keys of the worker registry, in iteration order. -/
def registryKeys (s : MosaicDisplay) : List Ptr :=
  s.mosaic_presenters_.map Prod.fst

/-- Outputs 1 (connected) and 2 (disconnected), powered on with a topology change pending;
the registry holds a worker for output 2 only, which holds release fence 9. -/
def staleRegistry : MosaicDisplay :=
  { idle (fun p => if p = 1 then output true 1920 1080 60 else output false 1280 720 60)
      (fun _ => layer 0 3000) [1, 2] with
    power_mode_ := kOn, update_connected_displays_ := true,
    mosaic_presenters_ :=
      [(2, { MosaicDisplayPresenter.fresh.Initialize with release_fence_ := 9 })] }

/-- Outputs 1 and 2 connected, output 3 disconnected, all 1920x1080 at 60 Hz. -/
def twoLeftHeap (p : Ptr) : NativeDisplay :=
  if p = 3 then output false 1920 1080 60 else output true 1920 1080 60

/-- The state `threeOutputs` after two of the three outputs have reported (timestamps 100
and 101), output 3 has dropped, and the `HotPlugUpdate` for that has been processed: a cycle
truncated by a topology change that leaves two outputs connected. -/
def afterTruncatedCycle : MosaicDisplay :=
  ({ threeOutputs.VSyncUpdates [100, 101] with displays := twoLeftHeap }).HotPlugUpdate false

/-- Outputs 1 (60 Hz) and 2 (30 Hz), both connected and 1920x1080. -/
def refresh6030 (p : Ptr) : NativeDisplay :=
  if p = 1 then output true 1920 1080 60 else output true 1920 1080 30

end MosaicDisplay

namespace MosaicDisplayPresenter

/-- One tile `Present` request as the controller issues it, with the layer heap at that time
and the fence the output hands back if the frame is submitted. -/
structure TileFrame where
  display : Ptr
  nd : NativeDisplay
  left_constraint : Int
  total_displays : Int
  display_id : Int
  source_layers : List Ptr
  call_back : Option Ptr
  heap : Ptr → HwcLayer
  out_fence : Int

/-- The worker after one frame. -/
def presentFrame (m : MosaicDisplayPresenter) (f : TileFrame) : MosaicDisplayPresenter :=
  (m.Present f.display f.nd f.left_constraint f.total_displays f.display_id f.source_layers
    f.call_back f.heap f.out_fence).1

/-- The worker after a sequence of frames. -/
def presentFrames (m : MosaicDisplayPresenter) (fs : List TileFrame) : MosaicDisplayPresenter :=
  fs.foldl presentFrame m

/-- The frame retains at least one layer, so it is submitted to the output. -/
def TileFrame.submits (f : TileFrame) : Bool :=
  f.source_layers.any (fun p => !excluded (f.heap p).display_frame_ f.left_constraint
    (right_constraint f.left_constraint f.nd.width))

/-- Fences handed back by the output over a sequence of frames, in order. -/
def capturedFences (fs : List TileFrame) : List Int :=
  (fs.filter TileFrame.submits).map TileFrame.out_fence

/-- The release fence the worker holds, if it holds one (`release_fence_ > 0`). -/
def heldFence (m : MosaicDisplayPresenter) : List Int :=
  if m.release_fence_ > 0 then [m.release_fence_] else []

/-- A frame for a 100-wide output at left constraint 0 with one layer spanning
`[left, right]`, for which the output hands back `fence`. -/
def frame (left right fence : Int) : TileFrame :=
  { display := 1, nd := MosaicDisplay.output true 100 100 60, left_constraint := 0,
    total_displays := 1, display_id := 0, source_layers := [10], call_back := none,
    heap := fun _ => MosaicDisplay.layer left right, out_fence := fence }

end MosaicDisplayPresenter

/-! ## Vertical-blank event handler (`common/display/vblankeventhandler.cpp`) -/

/-- `kOneSecondNs` (line 27). -/
def kOneSecondNs : Int := 1 * 1000 * 1000 * 1000

/-- Members of `VblankEventHandler` that the embedded methods use, and the trace of calls to
the registered `VsyncCallback`. -/
structure VblankEventHandler where
  display_ : Nat
  enabled_ : Bool
  fd_ : Int
  last_timestamp_ : Int
  callback_ : Option Ptr
  vsync_calls : List VsyncCall

namespace VblankEventHandler

/-- `VblankEventHandler::RegisterCallback` (lines 63-71); returns the state and the result. -/
def RegisterCallback (v : VblankEventHandler) (callback : Option Ptr) (display : Nat) :
    VblankEventHandler × Int :=
  ({ v with callback_ := callback, display_ := display, last_timestamp_ := -1 }, 0)

/-- `VblankEventHandler::VSyncControl` (lines 73-84); returns the state and the result. -/
def VSyncControl (v : VblankEventHandler) (enabled : Bool) : VblankEventHandler × Int :=
  if v.enabled_ = enabled then (v, 0)
  else ({ v with enabled_ := enabled, last_timestamp_ := -1 }, 0)

/-- `VblankEventHandler::HandlePageFlipEvent` (lines 86-101); `sec` and `usec` are
`unsigned int`. -/
def HandlePageFlipEvent (v : VblankEventHandler) (sec usec : Nat) : VblankEventHandler :=
  let timestamp :=
    toInt64 (toInt64 (((sec % 2 ^ 32 : Nat) : Int) * kOneSecondNs) +
      toInt64 (((usec % 2 ^ 32 : Nat) : Int) * 1000))
  let v1 : VblankEventHandler := { v with last_timestamp_ := timestamp }
  match v1.callback_ with
  | some cb =>
    if v1.enabled_ = true then
      { v1 with vsync_calls := v1.vsync_calls ++ [⟨cb, v1.display_, timestamp⟩] }
    else v1
  | none => v1

/-- The handler as constructed (lines 29-37), before `Init`. -/
def initial : VblankEventHandler :=
  { display_ := 0, enabled_ := false, fd_ := -1, last_timestamp_ := -1, callback_ := none,
    vsync_calls := [] }

end VblankEventHandler

namespace MosaicDisplay

/-- The state `twoTiles` with every layer spanning `[5000, 6000]`, outside the window
`[0, 1920]` of the first worker. -/
def offscreenTiles : MosaicDisplay :=
  { twoTiles with layer_heap := fun _ => layer 5000 6000 }

/-- Outputs 1 (connected: 60 Hz, 96 dpi) and 2 (disconnected: 30 Hz, 72 x 48 dpi). -/
def mixedOutputsHeap (p : Ptr) : NativeDisplay :=
  if p = 1 then output true 1920 1080 60
  else { output false 1280 720 30 with dpix := 72, dpiy := 48 }

/-- One call either leaves the cached connection state and the hotplug trace as they were, or
changes the cached state and delivers the new state to the registered callback. `next` is the
state after the call. -/
def HotplugStep (s next : MosaicDisplay) : Prop :=
  next.hotplug_callback_ = s.hotplug_callback_ ∧
  next.display_id_ = s.display_id_ ∧
  ((next.connected_ = s.connected_ ∧ next.hotplug_calls = s.hotplug_calls) ∨
    (∃ cb, s.hotplug_callback_ = some cb ∧ s.connected_ ≠ next.connected_ ∧
      next.hotplug_calls = s.hotplug_calls ++ [⟨cb, s.display_id_, next.connected_⟩]))

end MosaicDisplay

end hwcomposer

/-! ## Linux front end (`os/linux/linux_frontend.cpp`) -/

namespace IAHWC

/-- Status `IAHWC_ERROR_NONE` of `iahwc.h` (the header is outside the sources). -/
def IAHWC_ERROR_NONE : Int := 0

/-- One call `native_display_->SetGamma(red, green, blue)`, with the arguments in the
order of the parameters of `SetGamma` (`mosaicdisplay.cpp`, line 364). `F` stands for
`float`: the values are passed on and nothing is computed with them. -/
structure GammaCall (F : Type) where
  red : F
  green : F
  blue : F
deriving DecidableEq

/-- Members of `IAHWC::IAHWCDisplay` that `SetDisplayGamma` uses, and the trace of the
`SetGamma` calls made on the underlying display. -/
structure IAHWCDisplay (F : Type) where
  native_display_ : hwcomposer.Ptr
  gamma_calls : List (GammaCall F)

/-- `IAHWC::IAHWCDisplay::SetDisplayGamma(float r, float b, float g)` (lines 201-204);
returns the state and the result. -/
def IAHWCDisplay.SetDisplayGamma {F : Type} (d : IAHWCDisplay F) (r b g : F) :
    IAHWCDisplay F × Int :=
  ({ d with gamma_calls := d.gamma_calls ++ [⟨r, g, b⟩] }, IAHWC_ERROR_NONE)

end IAHWC

namespace hwcomposer

/-! ## Machine integer facts -/

/-- A value in the `int64_t` range is unchanged by the conversion. -/
theorem toInt64_of_range {x : Int} (h1 : -2 ^ 63 ≤ x) (h2 : x < 2 ^ 63) : toInt64 x = x := by
  unfold toInt64
  omega

/-- Wrapping an intermediate sum does not change the wrapped total. -/
theorem toInt64_add_left (a b : Int) : toInt64 (toInt64 a + b) = toInt64 (a + b) := by
  unfold toInt64
  omega

namespace MosaicDisplay

/-! ## Vsync aggregation -/

/-- One `VSyncUpdate` that does not complete the cycle. -/
theorem VSyncUpdate_pending (s : MosaicDisplay) (cb : Ptr) (t : Int)
    (hcb : s.vsync_callback_ = some cb) (hen : s.enable_vsync_ = true)
    (hdiv : 0 < s.vsync_divisor_) (hc : 1 < s.vsync_counter_) (hc32 : s.vsync_counter_ < 2 ^ 32) :
    (s.VSyncUpdate t).vsync_callback_ = some cb ∧
    (s.VSyncUpdate t).enable_vsync_ = true ∧
    (s.VSyncUpdate t).vsync_divisor_ = s.vsync_divisor_ ∧
    (s.VSyncUpdate t).display_id_ = s.display_id_ ∧
    (s.VSyncUpdate t).vsync_calls = s.vsync_calls ∧
    (s.VSyncUpdate t).vsync_counter_ = s.vsync_counter_ - 1 ∧
    (s.VSyncUpdate t).vsync_timestamp_ = toInt64 (s.vsync_timestamp_ + t) ∧
    (s.VSyncUpdate t).pending_vsync_ = true := by
  have h1 : (s.vsync_counter_ + 4294967295) % 4294967296 = s.vsync_counter_ - 1 := by omega
  have h2 : ¬ (s.vsync_counter_ - 1 = 0) := by omega
  simp [VSyncUpdate, hcb, hen, hdiv, h1, h2]

/-- The `VSyncUpdate` that completes the cycle. -/
theorem VSyncUpdate_complete (s : MosaicDisplay) (cb : Ptr) (t : Int)
    (hcb : s.vsync_callback_ = some cb) (hen : s.enable_vsync_ = true)
    (hdiv : 0 < s.vsync_divisor_) (hc : s.vsync_counter_ = 1) :
    (s.VSyncUpdate t).vsync_calls = s.vsync_calls ++
      [⟨cb, s.display_id_, Int.tdiv (toInt64 (s.vsync_timestamp_ + t)) s.vsync_divisor_⟩] ∧
    (s.VSyncUpdate t).vsync_counter_ = s.vsync_divisor_ ∧
    (s.VSyncUpdate t).vsync_timestamp_ = 0 ∧
    (s.VSyncUpdate t).pending_vsync_ = false := by
  simp [VSyncUpdate, hcb, hen, hdiv, hc]

/-- Updates that stay short of the end of the cycle only count down and accumulate. -/
theorem VSyncUpdates_short (l : List Int) : ∀ (s : MosaicDisplay) (cb : Ptr),
    s.vsync_callback_ = some cb → s.enable_vsync_ = true → 0 < s.vsync_divisor_ →
    l.length < s.vsync_counter_ → s.vsync_counter_ < 2 ^ 32 →
    (s.VSyncUpdates l).vsync_callback_ = some cb ∧
    (s.VSyncUpdates l).enable_vsync_ = true ∧
    (s.VSyncUpdates l).vsync_divisor_ = s.vsync_divisor_ ∧
    (s.VSyncUpdates l).display_id_ = s.display_id_ ∧
    (s.VSyncUpdates l).vsync_calls = s.vsync_calls ∧
    (s.VSyncUpdates l).vsync_counter_ = s.vsync_counter_ - l.length ∧
    toInt64 (s.VSyncUpdates l).vsync_timestamp_ = toInt64 (s.vsync_timestamp_ + l.sum) ∧
    (l ≠ [] → (s.VSyncUpdates l).pending_vsync_ = true ∧
      (s.VSyncUpdates l).vsync_timestamp_ = toInt64 (s.vsync_timestamp_ + l.sum)) := by
  induction l with
  | nil => intro s cb hcb hen _ _ _; simp [VSyncUpdates, hcb, hen]
  | cons t l ih =>
    intro s cb hcb hen hdiv hlen hc32
    simp only [List.length_cons] at hlen
    obtain ⟨g1, g2, g3, g4, g5, g6, g7, g8⟩ :=
      VSyncUpdate_pending s cb t hcb hen hdiv (by omega) hc32
    have hfold : s.VSyncUpdates (t :: l) = (s.VSyncUpdate t).VSyncUpdates l := rfl
    rw [hfold]
    obtain ⟨h1, h2, h3, h4, h5, h6, h7, h8⟩ := ih (s.VSyncUpdate t) cb g1 g2
      (by rw [g3]; exact hdiv) (by rw [g6]; omega) (by rw [g6]; omega)
    have hsum : toInt64 (toInt64 (s.vsync_timestamp_ + t) + l.sum) =
        toInt64 (s.vsync_timestamp_ + (t :: l).sum) := by
      rw [toInt64_add_left, List.sum_cons]; congr 1; ring
    refine ⟨h1, h2, h3.trans g3, h4.trans g4, h5.trans g5, ?_, ?_, fun _ => ?_⟩
    · rw [h6, g6]; simp only [List.length_cons]; omega
    · rw [h7, g7, hsum]
    · by_cases hl : l = []
      · subst hl
        refine ⟨g8, ?_⟩
        show (s.VSyncUpdate t).vsync_timestamp_ = _
        rw [g7]; simp
      · obtain ⟨h9, h10⟩ := h8 hl
        exact ⟨h9, by rw [h10, g7, hsum]⟩

/-- C1. Full vsync cycle: from a state with vsync enabled, an upstream callback registered,
divisor = counter = N >= 1 and accumulator 0, N consecutive `VSyncUpdate` calls with timestamps
whose sum fits in `int64_t` invoke the upstream callback exactly once, on the N-th call (no
proper prefix of the calls adds to the trace), with (logical id, sum / N) where the sum is
divided once, truncating; afterwards counter = N, accumulator = 0 and pending = false. -/
theorem VSyncUpdate_full_cycle (s : MosaicDisplay) (cb : Ptr) (ts : List Int)
    (hcb : s.vsync_callback_ = some cb) (hen : s.enable_vsync_ = true)
    (hN : 1 ≤ ts.length) (hN32 : ts.length < 2 ^ 32)
    (hdiv : s.vsync_divisor_ = ts.length) (hcnt : s.vsync_counter_ = ts.length)
    (hacc : s.vsync_timestamp_ = 0)
    (hlo : -2 ^ 63 ≤ ts.sum) (hhi : ts.sum < 2 ^ 63) :
    (∀ j, j < ts.length → (s.VSyncUpdates (ts.take j)).vsync_calls = s.vsync_calls) ∧
    (s.VSyncUpdates ts).vsync_calls =
      s.vsync_calls ++ [⟨cb, s.display_id_, Int.tdiv ts.sum (ts.length : Int)⟩] ∧
    (s.VSyncUpdates ts).vsync_counter_ = ts.length ∧
    (s.VSyncUpdates ts).vsync_timestamp_ = 0 ∧
    (s.VSyncUpdates ts).pending_vsync_ = false := by
  have hshort : ∀ j, j < ts.length → _ := fun j hj =>
    VSyncUpdates_short (ts.take j) s cb hcb hen (by omega)
      (by rw [List.length_take]; omega) (by omega)
  refine ⟨fun j hj => (hshort j hj).2.2.2.2.1, ?_⟩
  obtain ⟨h1, h2, h3, h4, h5, h6, h7, -⟩ := hshort (ts.length - 1) (by omega)
  have hne : ts ≠ [] := by intro h; simp [h] at hN
  have hsplit : ts = ts.take (ts.length - 1) ++ [ts.getLast hne] := by
    rw [← List.dropLast_eq_take]; exact (List.dropLast_append_getLast hne).symm
  have hrun : s.VSyncUpdates ts =
      (s.VSyncUpdates (ts.take (ts.length - 1))).VSyncUpdate (ts.getLast hne) := by
    conv_lhs => rw [hsplit]
    simp [VSyncUpdates, List.foldl_append]
  have hsum : (ts.take (ts.length - 1)).sum + ts.getLast hne = ts.sum := by
    conv_rhs => rw [hsplit]
    simp [List.sum_append]
  obtain ⟨k1, k2, k3, k4⟩ := VSyncUpdate_complete (s.VSyncUpdates (ts.take (ts.length - 1))) cb
    (ts.getLast hne) h1 h2 (by rw [h3]; omega) (by rw [h6, List.length_take]; omega)
  have hts : toInt64 ((s.VSyncUpdates (ts.take (ts.length - 1))).vsync_timestamp_ +
      ts.getLast hne) = ts.sum := by
    rw [← toInt64_add_left, h7, toInt64_add_left, hacc, zero_add, hsum]
    exact toInt64_of_range hlo hhi
  rw [hrun]
  refine ⟨?_, ?_, k3, k4⟩
  · rw [k1, hts, h3, h4, h5, hdiv]
  · rw [k2, h3, hdiv]


/-- The counting loop adds the number of connected outputs to its start value. -/
theorem count_acc (displays : Ptr → NativeDisplay) (ps : List Ptr) : ∀ a : Nat,
    a + ps.length < 2 ^ 32 →
    ps.foldl (fun total p => if (displays p).connected = true then (total + 1) % 2 ^ 32 else total) a
      = a + ps.countP (fun p => (displays p).connected) := by
  induction ps with
  | nil => intro a _; simp
  | cons p ps ih =>
    intro a ha
    simp only [List.length_cons] at ha
    simp only [List.foldl_cons]
    by_cases hp : (displays p).connected = true
    · have hmod : (a + 1) % 2 ^ 32 = a + 1 := Nat.mod_eq_of_lt (by omega)
      rw [if_pos hp, hmod, ih (a + 1) (by omega)]
      simp only [List.countP_cons, hp, if_true]
      omega
    · rw [if_neg hp, ih a (by omega)]
      simp [List.countP_cons, hp]

/-- The constructor stores fewer than `2 ^ 32` outputs, whatever list it is given. -/
theorem constructed_displays_length (displays : List Ptr) :
    (constructed_displays displays).length < 2 ^ 32 := by
  unfold constructed_displays
  rw [List.length_take]
  exact lt_of_le_of_lt (Nat.min_le_left _ _) (Nat.mod_lt _ (by norm_num))

/-- With fewer than `2 ^ 32` outputs every loop visits all of them. -/
theorem iterated_eq (s : MosaicDisplay) (h : s.physical_displays_.length < 2 ^ 32) :
    s.iterated = s.physical_displays_ := by
  unfold iterated
  rw [Nat.mod_eq_of_lt h, List.take_length]

/-- The counting loop of `HotPlugUpdate` yields the number of connected outputs. -/
theorem count_eq_connectedCount (s : MosaicDisplay) (h : s.physical_displays_.length < 2 ^ 32) :
    HotPlugUpdate.count s.displays s.iterated = connectedCount s := by
  unfold HotPlugUpdate.count connectedCount
  rw [iterated_eq s h, count_acc s.displays s.physical_displays_ 0 (by omega)]
  simp

/-- No more outputs are connected than are owned. -/
theorem connectedCount_le (s : MosaicDisplay) : connectedCount s ≤ s.physical_displays_.length :=
  List.countP_le_length _

/-- The flush of `HotPlugUpdate` touches only the accumulator, the pending flag and the
vsync trace. -/
theorem flush_frame (s : MosaicDisplay) (n : Nat) :
    (HotPlugUpdate.flush s n).displays = s.displays ∧
    (HotPlugUpdate.flush s n).physical_displays_ = s.physical_displays_ ∧
    (HotPlugUpdate.flush s n).update_connected_displays_ = s.update_connected_displays_ ∧
    (HotPlugUpdate.flush s n).connected_ = s.connected_ ∧
    (HotPlugUpdate.flush s n).hotplug_callback_ = s.hotplug_callback_ ∧
    (HotPlugUpdate.flush s n).hotplug_calls = s.hotplug_calls ∧
    (HotPlugUpdate.flush s n).display_id_ = s.display_id_ ∧
    (HotPlugUpdate.flush s n).vsync_callback_ = s.vsync_callback_ ∧
    (HotPlugUpdate.flush s n).enable_vsync_ = s.enable_vsync_ := by
  unfold HotPlugUpdate.flush
  split
  · split_ifs <;> simp
  · simp

/-- The notification part of `HotPlugUpdate` touches only the cached connection state and
the hotplug trace. -/
theorem notify_frame (s : MosaicDisplay) (c : Bool) (n : Nat) :
    (HotPlugUpdate.notify s c n).vsync_counter_ = s.vsync_counter_ ∧
    (HotPlugUpdate.notify s c n).vsync_divisor_ = s.vsync_divisor_ ∧
    (HotPlugUpdate.notify s c n).update_connected_displays_ = s.update_connected_displays_ ∧
    (HotPlugUpdate.notify s c n).physical_displays_ = s.physical_displays_ ∧
    (HotPlugUpdate.notify s c n).displays = s.displays ∧
    (HotPlugUpdate.notify s c n).vsync_calls = s.vsync_calls ∧
    (HotPlugUpdate.notify s c n).vsync_timestamp_ = s.vsync_timestamp_ ∧
    (HotPlugUpdate.notify s c n).pending_vsync_ = s.pending_vsync_ := by
  unfold HotPlugUpdate.notify
  split_ifs <;> first | simp | (split <;> simp)

/-- Fields of the state left by the vsync part of `HotPlugUpdate` (lines 320-341), which
every return path keeps. -/
theorem HotPlugUpdate_vsync_fields (s : MosaicDisplay) (connected : Bool) :
    (s.HotPlugUpdate connected).vsync_counter_ = HotPlugUpdate.count s.displays s.iterated ∧
    (s.HotPlugUpdate connected).vsync_divisor_ = HotPlugUpdate.count s.displays s.iterated ∧
    (s.HotPlugUpdate connected).update_connected_displays_ = true ∧
    (s.HotPlugUpdate connected).physical_displays_ = s.physical_displays_ ∧
    (s.HotPlugUpdate connected).displays = s.displays := by
  obtain ⟨n1, n2, n3, n4, n5, -⟩ := notify_frame
    { HotPlugUpdate.flush { s with update_connected_displays_ := true }
        (HotPlugUpdate.count s.displays s.iterated) with
      vsync_counter_ := HotPlugUpdate.count s.displays s.iterated
      vsync_divisor_ := HotPlugUpdate.count s.displays s.iterated }
    connected (HotPlugUpdate.count s.displays s.iterated)
  obtain ⟨f1, f2, f3, -⟩ := flush_frame { s with update_connected_displays_ := true }
    (HotPlugUpdate.count s.displays s.iterated)
  exact ⟨n1, n2, n3.trans f3, n4.trans f2, n5.trans f1⟩


/-- What `VSyncUpdate` keeps, and how it moves the counter, in a state whose counter lies in
`[1, divisor]` (or is `0` with divisor `0`). -/
theorem VSyncUpdate_counter (s : MosaicDisplay) (t : Int)
    (h32 : s.vsync_divisor_ < 2 ^ 32) (hle : s.vsync_counter_ ≤ s.vsync_divisor_)
    (hpos : 0 < s.vsync_divisor_ → 0 < s.vsync_counter_) :
    (s.VSyncUpdate t).physical_displays_ = s.physical_displays_ ∧
    (s.VSyncUpdate t).displays = s.displays ∧
    (s.VSyncUpdate t).vsync_divisor_ = s.vsync_divisor_ ∧
    (s.VSyncUpdate t).vsync_counter_ ≤ s.vsync_divisor_ ∧
    (0 < s.vsync_divisor_ → 0 < (s.VSyncUpdate t).vsync_counter_) := by
  unfold VSyncUpdate
  cases s.vsync_callback_ with
  | none => exact ⟨rfl, rfl, rfl, hle, hpos⟩
  | some cb =>
    dsimp only
    by_cases h1 : s.enable_vsync_ = true ∧ s.vsync_divisor_ > 0
    · rw [if_pos h1]
      have := hpos h1.2
      by_cases h2 : (s.vsync_counter_ + (2 ^ 32 - 1)) % 2 ^ 32 = 0
      · rw [if_pos h2]
        exact ⟨rfl, rfl, rfl, le_refl _, fun h => h⟩
      · rw [if_neg h2]
        dsimp only
        refine ⟨rfl, rfl, rfl, ?_, fun _ => ?_⟩ <;> omega
    · rw [if_neg h1]
      exact ⟨rfl, rfl, rfl, hle, hpos⟩

/-- `VSyncControl` keeps the output list, the divisor and the counter. -/
theorem VSyncControl_frame (s : MosaicDisplay) (e : Bool) :
    (s.VSyncControl e).physical_displays_ = s.physical_displays_ ∧
    (s.VSyncControl e).vsync_divisor_ = s.vsync_divisor_ ∧
    (s.VSyncControl e).vsync_counter_ = s.vsync_counter_ := by
  unfold VSyncControl
  split_ifs <;> exact ⟨rfl, rfl, rfl⟩

/-- Every call keeps the invariant, with the observed count updated by `HotPlugUpdate`. -/
theorem VsyncInv_run (cs : List Call) : ∀ (s : MosaicDisplay) (o : Option Nat),
    VsyncInv s o → VsyncInv (s.run cs) (lastObserved s cs o) := by
  induction cs with
  | nil => intro s o h; exact h
  | cons c cs ih =>
    intro s o ⟨hlen, hd, h32, hle, hpos⟩
    cases c with
    | HotPlugUpdate connected =>
      obtain ⟨f1, f2, -, f4, -⟩ := HotPlugUpdate_vsync_fields s connected
      rw [count_eq_connectedCount s hlen] at f1 f2
      have hc := connectedCount_le s
      exact ih (s.HotPlugUpdate connected) (some (connectedCount s))
        ⟨by rw [f4]; exact hlen, f2, by rw [f2]; omega, by rw [f1, f2],
          by rw [f1, f2]; exact fun h => h⟩
    | VSyncUpdate t =>
      obtain ⟨f1, -, f3, f4, f5⟩ := VSyncUpdate_counter s t h32 hle hpos
      exact ih (s.VSyncUpdate t) o
        ⟨by rw [f1]; exact hlen, by rw [f3]; exact hd, by rw [f3]; exact h32,
          by rw [f3]; exact f4, by rw [f3]; exact f5⟩
    | VSyncControl e =>
      obtain ⟨f1, f2, f3⟩ := VSyncControl_frame s e
      exact ih (s.VSyncControl e) o
        ⟨by rw [f1]; exact hlen, by rw [f2]; exact hd, by rw [f2]; exact h32,
          by rw [f2, f3]; exact hle, by rw [f2, f3]; exact hpos⟩
    | outputs d =>
      exact ih { s with displays := d } o ⟨hlen, hd, h32, hle, hpos⟩

/-- C3. Vsync aggregation invariant: in every state reached from a state with
counter = divisor = 0 by any sequence of `HotPlugUpdate`, `VSyncUpdate` and `VSyncControl`
calls (and changes of the outputs in between), divisor equals the connected count seen by the
most recent `HotPlugUpdate` (0 before the first one), counter <= divisor, and counter >= 1
whenever divisor > 0, so the decrement of `VSyncUpdate` never underflows; and a `HotPlugUpdate`
made in such a state ends, on every return path, with counter = divisor = connected count and
the topology-dirty flag set. -/
theorem vsync_aggregation_invariant (s0 : MosaicDisplay) (cs : List Call)
    (hlen : s0.physical_displays_.length < 2 ^ 32)
    (hc : s0.vsync_counter_ = 0) (hd : s0.vsync_divisor_ = 0) :
    (s0.run cs).vsync_divisor_ = (lastObserved s0 cs none).getD 0 ∧
    (s0.run cs).vsync_counter_ ≤ (s0.run cs).vsync_divisor_ ∧
    (0 < (s0.run cs).vsync_divisor_ → 0 < (s0.run cs).vsync_counter_) ∧
    ∀ connected : Bool,
      ((s0.run cs).HotPlugUpdate connected).vsync_counter_ = connectedCount (s0.run cs) ∧
      ((s0.run cs).HotPlugUpdate connected).vsync_divisor_ = connectedCount (s0.run cs) ∧
      ((s0.run cs).HotPlugUpdate connected).update_connected_displays_ = true := by
  obtain ⟨h1, h2, -, h4, h5⟩ := VsyncInv_run cs s0 none
    ⟨hlen, by rw [hd]; rfl, by rw [hd]; norm_num, by rw [hc, hd], by rw [hd]; intro h; omega⟩
  refine ⟨h2, h4, h5, fun connected => ?_⟩
  obtain ⟨f1, f2, f3, -⟩ := HotPlugUpdate_vsync_fields (s0.run cs) connected
  rw [count_eq_connectedCount _ h1] at f1 f2
  exact ⟨f1, f2, f3⟩


/-! ## Connection state -/

/-- The loop of `IsConnected` answers whether some visited output is connected. -/
theorem IsConnected_loop_iff (displays : Ptr → NativeDisplay) (ps : List Ptr) :
    IsConnected.loop displays ps = true ↔ ∃ p ∈ ps, (displays p).connected = true := by
  induction ps with
  | nil => simp [IsConnected.loop]
  | cons p ps ih =>
    unfold IsConnected.loop
    by_cases hp : (displays p).connected = true
    · simp [hp]
    · simp [hp, ih]

/-- C7. `IsConnected` returns true if and only if at least one owned output reports
connected; it returns false for an empty output set and for a set in which no output is
connected, and true as soon as one output is connected. -/
theorem IsConnected_iff_some_output_connected (s : MosaicDisplay)
    (hlen : s.physical_displays_.length < 2 ^ 32) :
    (s.IsConnected = true ↔ ∃ p ∈ s.physical_displays_, (s.displays p).connected = true) ∧
    (s.physical_displays_ = [] → s.IsConnected = false) ∧
    ((∀ p ∈ s.physical_displays_, (s.displays p).connected = false) → s.IsConnected = false) ∧
    (∀ p ∈ s.physical_displays_, (s.displays p).connected = true → s.IsConnected = true) := by
  have hiff : s.IsConnected = true ↔ ∃ p ∈ s.physical_displays_, (s.displays p).connected = true := by
    unfold IsConnected
    rw [iterated_eq s hlen]
    exact IsConnected_loop_iff _ _
  refine ⟨hiff, fun h => ?_, fun h => ?_, fun p hp hc => hiff.2 ⟨p, hp, hc⟩⟩
  · rw [Bool.eq_false_iff]
    intro hc
    obtain ⟨p, hp, -⟩ := hiff.1 hc
    rw [h] at hp
    exact absurd hp (List.not_mem_nil p)
  · rw [Bool.eq_false_iff]
    intro hc
    obtain ⟨p, hp, hpc⟩ := hiff.1 hc
    rw [h p hp] at hpc
    exact Bool.noConfusion hpc

/-- What the notification part of `HotPlugUpdate` does on each of its paths. -/
theorem notify_cases (s : MosaicDisplay) (c : Bool) (n : Nat) :
    (s.connected_ = c →
      (HotPlugUpdate.notify s c n).hotplug_calls = s.hotplug_calls ∧
      (HotPlugUpdate.notify s c n).connected_ = s.connected_) ∧
    (c = false → s.connected_ = true → 0 < n →
      (HotPlugUpdate.notify s c n).hotplug_calls = s.hotplug_calls ∧
      (HotPlugUpdate.notify s c n).connected_ = true) ∧
    (s.connected_ ≠ c → ¬ (c = false ∧ s.connected_ = true ∧ 0 < n) →
      (∀ cb, s.hotplug_callback_ = some cb →
        (HotPlugUpdate.notify s c n).connected_ = c ∧
        (HotPlugUpdate.notify s c n).hotplug_calls = s.hotplug_calls ++ [⟨cb, s.display_id_, c⟩]) ∧
      (s.hotplug_callback_ = none →
        (HotPlugUpdate.notify s c n).connected_ = s.connected_ ∧
        (HotPlugUpdate.notify s c n).hotplug_calls = s.hotplug_calls)) := by
  refine ⟨fun h => ?_, fun hc hs hn => ?_, fun hne hnot => ⟨fun cb hcb => ?_, fun hcb => ?_⟩⟩
  · unfold HotPlugUpdate.notify
    rw [if_pos h]
    exact ⟨rfl, rfl⟩
  · have hne : ¬ (s.connected_ = c) := by rw [hc, hs]; decide
    have hcond : c = false ∧ s.connected_ = true ∧ n ≠ 0 := ⟨hc, hs, by omega⟩
    unfold HotPlugUpdate.notify
    rw [if_neg hne]
    cases hcb : s.hotplug_callback_ with
    | none => exact ⟨rfl, hs⟩
    | some cb => dsimp only; rw [if_pos hcond]; exact ⟨rfl, hs⟩
  · have hcond : ¬ (c = false ∧ s.connected_ = true ∧ n ≠ 0) :=
      fun h => hnot ⟨h.1, h.2.1, by have := h.2.2; omega⟩
    unfold HotPlugUpdate.notify
    rw [if_neg hne, hcb]
    dsimp only
    rw [if_neg hcond]
    exact ⟨rfl, rfl⟩
  · unfold HotPlugUpdate.notify
    rw [if_neg hne, hcb]
    exact ⟨rfl, rfl⟩

/-- C10 (amended). `HotPlugUpdate(connected)`: (1) if the cached aggregate state already
equals `connected`, no hotplug callback is invoked and the cached state is unchanged; (2) if
`connected` is false, the cached state is true and an output is still connected, no callback is
invoked and the cached state stays true; (3) in every other case, with an upstream hotplug
callback registered the cached state becomes `connected` and that callback is invoked exactly
once with (logical id, connected), and with none registered the cached state and the trace
are left as they were. -/
theorem HotPlugUpdate_upstream_notification (s : MosaicDisplay) (connected : Bool)
    (hlen : s.physical_displays_.length < 2 ^ 32) :
    (s.connected_ = connected →
      (s.HotPlugUpdate connected).hotplug_calls = s.hotplug_calls ∧
      (s.HotPlugUpdate connected).connected_ = s.connected_) ∧
    (connected = false → s.connected_ = true → 0 < connectedCount s →
      (s.HotPlugUpdate connected).hotplug_calls = s.hotplug_calls ∧
      (s.HotPlugUpdate connected).connected_ = true) ∧
    (s.connected_ ≠ connected → ¬ (connected = false ∧ s.connected_ = true ∧ 0 < connectedCount s) →
      (∀ cb, s.hotplug_callback_ = some cb →
        (s.HotPlugUpdate connected).connected_ = connected ∧
        (s.HotPlugUpdate connected).hotplug_calls =
          s.hotplug_calls ++ [⟨cb, s.display_id_, connected⟩]) ∧
      (s.hotplug_callback_ = none →
        (s.HotPlugUpdate connected).connected_ = s.connected_ ∧
        (s.HotPlugUpdate connected).hotplug_calls = s.hotplug_calls)) := by
  obtain ⟨-, -, -, f4, f5, f6, f7, -⟩ := flush_frame { s with update_connected_displays_ := true }
    (HotPlugUpdate.count s.displays s.iterated)
  have h := notify_cases
    { HotPlugUpdate.flush { s with update_connected_displays_ := true }
        (HotPlugUpdate.count s.displays s.iterated) with
      vsync_counter_ := HotPlugUpdate.count s.displays s.iterated
      vsync_divisor_ := HotPlugUpdate.count s.displays s.iterated }
    connected (HotPlugUpdate.count s.displays s.iterated)
  have hdef : HotPlugUpdate.notify
      { HotPlugUpdate.flush { s with update_connected_displays_ := true }
          (HotPlugUpdate.count s.displays s.iterated) with
        vsync_counter_ := HotPlugUpdate.count s.displays s.iterated
        vsync_divisor_ := HotPlugUpdate.count s.displays s.iterated }
      connected (HotPlugUpdate.count s.displays s.iterated) = s.HotPlugUpdate connected := rfl
  rw [hdef] at h
  dsimp only at h
  rw [f4, f5, f6, f7, count_eq_connectedCount s hlen] at h
  exact h


/-! ## Composite mode -/

/-- A fan-out whose member call keeps an attribute keeps it on every output. -/
theorem fanOut_keeps {α : Type} (g : NativeDisplay → α) (f : NativeDisplay → NativeDisplay)
    (hf : ∀ d, g (f d) = g d) (ps : List Ptr) :
    ∀ (displays : Ptr → NativeDisplay) (p : Ptr), g (fanOut f ps displays p) = g (displays p) := by
  induction ps with
  | nil => intro displays p; rfl
  | cons q ps ih =>
    intro displays p
    show g (fanOut f ps (Function.update displays q (f (displays q))) p) = _
    rw [ih]
    by_cases hpq : p = q
    · subst hpq; rw [Function.update_same, hf]
    · rw [Function.update_noteq hpq]

/-- Width and height accumulated by the second loop of `SetActiveConfig`. -/
theorem SetActiveConfig_loop_geometry (ps : List Ptr) : ∀ (i avg : Nat) (s : MosaicDisplay),
    s.width_ < 2 ^ 32 →
    (SetActiveConfig.loop ps i avg s).1.width_ =
      (s.width_ + (ps.map (fun p => (s.displays p).width)).sum) % 2 ^ 32 ∧
    (SetActiveConfig.loop ps i avg s).1.height_ =
      max s.height_ ((ps.map (fun p => (s.displays p).height)).foldr max 0) ∧
    (SetActiveConfig.loop ps i avg s).1.displays = s.displays := by
  induction ps with
  | nil =>
    intro i avg s hw
    unfold SetActiveConfig.loop
    refine ⟨?_, ?_, rfl⟩
    · simp only [List.map_nil, List.sum_nil]; omega
    · simp
  | cons p ps ih =>
    intro i avg s hw
    unfold SetActiveConfig.loop
    dsimp only
    obtain ⟨h1, h2, h3⟩ := ih ((i + 1) % 2 ^ 32) ((avg + 1) % 2 ^ 32)
      { s with
        height_ := max s.height_ (s.displays p).height
        width_ := (s.width_ + (s.displays p).width) % 2 ^ 32
        dpix_ := (s.dpix_ + toUInt32 (toInt32 (s.displays p).dpix)) % 2 ^ 32
        dpiy_ := (s.dpiy_ + toUInt32 (toInt32 (s.displays p).dpiy)) % 2 ^ 32
        refresh_ := (s.refresh_ + toUInt32 (toInt32 (s.displays p).refresh)) % 2 ^ 32
        preferred_display_index_ :=
          if (0 : Int) < toInt32 (s.displays p).refresh then i else s.preferred_display_index_ }
      (Nat.mod_lt _ (by norm_num))
    refine ⟨h1.trans ?_, h2.trans ?_, h3⟩
    · simp only [List.map_cons, List.sum_cons]
      omega
    · simp only [List.map_cons, List.foldr_cons]
      rw [max_assoc]

/-- The result of `SetActiveConfig` in terms of its second loop. -/
theorem SetActiveConfig_geometry_of_loop (s : MosaicDisplay) (config : Nat) :
    (s.SetActiveConfig config).1.width_ =
      (SetActiveConfig.loop s.iterated 0 0
        { s with
          config_ := config, width_ := 0, height_ := 0
          displays := fanOut (fun d => { d with active_config := config }) s.iterated s.displays }).1.width_ ∧
    (s.SetActiveConfig config).1.height_ =
      (SetActiveConfig.loop s.iterated 0 0
        { s with
          config_ := config, width_ := 0, height_ := 0
          displays := fanOut (fun d => { d with active_config := config }) s.iterated s.displays }).1.height_ ∧
    (s.SetActiveConfig config).2 = true := by
  unfold SetActiveConfig
  dsimp only
  split_ifs <;> exact ⟨rfl, rfl, rfl⟩

/-- C8. `SetActiveConfig` geometry: for every output list and every prior state, afterwards
the composite width is the sum of the owned outputs' widths modulo 2^32, the composite height
is the maximum of their heights (0 for an empty list) and the call returns true; for widths
1920/1280 and heights 1080/720 this is width 3200 and height 1080. -/
theorem SetActiveConfig_geometry (s : MosaicDisplay) (config : Nat)
    (hlen : s.physical_displays_.length < 2 ^ 32) :
    (s.SetActiveConfig config).1.width_ =
      (s.physical_displays_.map (fun p => (s.displays p).width)).sum % 2 ^ 32 ∧
    (s.SetActiveConfig config).1.height_ =
      (s.physical_displays_.map (fun p => (s.displays p).height)).foldr max 0 ∧
    (s.SetActiveConfig config).2 = true ∧
    (∀ p q, s.physical_displays_ = [p, q] →
      (s.displays p).width = 1920 → (s.displays q).width = 1280 →
      (s.displays p).height = 1080 → (s.displays q).height = 720 →
      (s.SetActiveConfig config).1.width_ = 3200 ∧ (s.SetActiveConfig config).1.height_ = 1080) := by
  obtain ⟨g1, g2, g3⟩ := SetActiveConfig_geometry_of_loop s config
  obtain ⟨l1, l2, -⟩ := SetActiveConfig_loop_geometry s.iterated 0 0
    { s with
      config_ := config, width_ := 0, height_ := 0
      displays := fanOut (fun d => { d with active_config := config }) s.iterated s.displays }
    (by norm_num)
  have hw : ∀ p, (fanOut (fun d => { d with active_config := config }) s.iterated s.displays p).width
      = (s.displays p).width :=
    fanOut_keeps NativeDisplay.width (fun d => { d with active_config := config }) (fun _ => rfl) _ _
  have hh : ∀ p, (fanOut (fun d => { d with active_config := config }) s.iterated s.displays p).height
      = (s.displays p).height :=
    fanOut_keeps NativeDisplay.height (fun d => { d with active_config := config }) (fun _ => rfl) _ _
  dsimp only at l1 l2
  simp only [hw, hh, zero_add, Nat.zero_max] at l1 l2
  rw [iterated_eq s hlen] at l1 l2 g1 g2
  have e1 := g1.trans l1
  have e2 := g2.trans l2
  refine ⟨e1, e2, g3, fun p q hpq hp hq hp2 hq2 => ?_⟩
  rw [e1, e2, hpq]
  simp [hp, hq, hp2, hq2]

end MosaicDisplay

namespace MosaicDisplayPresenter

/-! ## Tile layer filter -/

/-- The loop of `HandleRoutine` appends to `layers_`, in order, the source layers that pass
the test of lines 562-563, and never changes a display frame. -/
theorem HandleRoutine_loop_layers (L rc : Int) (dl dr : Nat) (td : Int) (heap0 : Ptr → HwcLayer)
    (src : List Ptr) : ∀ (layers_ : List Ptr) (heap : Ptr → HwcLayer),
    (∀ p, (heap p).display_frame_ = (heap0 p).display_frame_) →
    (HandleRoutine.loop L rc dl dr td src layers_ heap).1 =
      layers_ ++ src.filter (fun p => !excluded (heap0 p).display_frame_ L rc) ∧
    ∀ p, ((HandleRoutine.loop L rc dl dr td src layers_ heap).2 p).display_frame_ =
      (heap0 p).display_frame_ := by
  induction src with
  | nil => intro layers_ heap h; exact ⟨by simp [HandleRoutine.loop], h⟩
  | cons q src ih =>
    intro layers_ heap h
    unfold HandleRoutine.loop
    dsimp only
    by_cases hq : excluded (heap q).display_frame_ L rc = true
    · rw [if_pos hq]
      obtain ⟨h1, h2⟩ := ih layers_ heap h
      refine ⟨h1.trans ?_, h2⟩
      rw [h q] at hq
      simp [List.filter_cons, hq]
    · rw [if_neg hq]
      obtain ⟨h1, h2⟩ := ih (layers_ ++ [q]) (Function.update heap q
        { heap q with
          left_constraint_ := toInt32 dl
          right_constraint_ := toInt32 dr
          left_source_constraint_ := L
          right_source_constraint_ := rc
          total_displays_ := toUInt32 td }) (by
          intro p
          by_cases hpq : p = q
          · subst hpq; rw [Function.update_same]; exact h p
          · rw [Function.update_noteq hpq]; exact h p)
      refine ⟨h1.trans ?_, h2⟩
      rw [h q] at hq
      simp [List.filter_cons, hq]

/-- `layers_` after `HandleRoutine`, on either return path. -/
theorem HandleRoutine_layers (m : MosaicDisplayPresenter) (nd : NativeDisplay)
    (heap : Ptr → HwcLayer) (out_fence : Int) :
    (m.HandleRoutine nd heap out_fence).1.layers_ =
      m.source_layers_.filter (fun p => !excluded (heap p).display_frame_ m.left_constraint_
        (right_constraint m.left_constraint_ nd.width)) := by
  obtain ⟨h1, -⟩ := HandleRoutine_loop_layers m.left_constraint_
    (right_constraint m.left_constraint_ nd.width) ((nd.logical_index * nd.width) % 2 ^ 32)
    (((nd.logical_index * nd.width) % 2 ^ 32 + nd.width) % 2 ^ 32)
    (toInt32 (m.total_displays_ - m.id_)) heap m.source_layers_ [] heap (fun _ => rfl)
  rw [List.nil_append] at h1
  unfold HandleRoutine
  dsimp only [ClearLayers]
  split_ifs <;> exact h1

/-- Without wrap-around the right constraint is the exact sum. -/
theorem right_constraint_exact (L : Int) (W : Nat) (h1 : -2 ^ 31 ≤ L + W) (h2 : L + W < 2 ^ 31) :
    right_constraint L W = L + W := by
  unfold right_constraint toInt32
  omega

/-- The layers a tile `Present` retains: the source layers, in order, that fail the test of
lines 562-563 against the original display frames. -/
theorem Present_layers (m : MosaicDisplayPresenter) (display : Ptr)
    (nd : NativeDisplay) (L total_displays display_id : Int) (source_layers : List Ptr)
    (call_back : Option Ptr) (heap : Ptr → HwcLayer) (out_fence : Int) :
    (m.Present display nd L total_displays display_id source_layers call_back heap out_fence).1.layers_
      = source_layers.filter (fun p => decide (¬ ((heap p).display_frame_.right < L ∨
          (heap p).display_frame_.left > right_constraint L nd.width))) := by
  unfold Present
  rw [HandleRoutine_layers]
  dsimp only
  congr 1
  funext p
  simp only [excluded, Bool.not_or, not_or, Bool.decide_and, decide_not, gt_iff_lt]

/-- C4. Tile layer filter: for every incoming layer list, left constraint L and output width
W, the layers retained by the tile worker are exactly the sub-list, in the original order, of
the layers whose display frame does not satisfy (right < L or left > L + W); a layer of the
list is excluded iff right < L or left > L + W. Here L + W is the worker's `right_constraint`,
which is the exact sum whenever that sum fits in `int32_t`. -/
theorem Present_retains_intersecting_layers (m : MosaicDisplayPresenter) (display : Ptr)
    (nd : NativeDisplay) (L total_displays display_id : Int) (source_layers : List Ptr)
    (call_back : Option Ptr) (heap : Ptr → HwcLayer) (out_fence : Int) :
    (m.Present display nd L total_displays display_id source_layers call_back heap out_fence).1.layers_
      = source_layers.filter (fun p => decide (¬ ((heap p).display_frame_.right < L ∨
          (heap p).display_frame_.left > right_constraint L nd.width))) ∧
    (∀ p ∈ source_layers,
      (p ∉ (m.Present display nd L total_displays display_id source_layers call_back heap
          out_fence).1.layers_ ↔
        ((heap p).display_frame_.right < L ∨
          (heap p).display_frame_.left > right_constraint L nd.width))) ∧
    (-2 ^ 31 ≤ L + nd.width → L + nd.width < 2 ^ 31 → right_constraint L nd.width = L + nd.width) := by
  have hl := Present_layers m display nd L total_displays display_id source_layers call_back
    heap out_fence
  refine ⟨hl, fun p hp => ?_, right_constraint_exact L nd.width⟩
  rw [hl, List.mem_filter]
  simp only [hp, true_and, decide_eq_true_eq, not_not]

/-- C4, at a concrete frame: with L = 100 and W = 100, of the layers spanning [0, 50],
[150, 180] and [250, 300] only the second is retained. -/
theorem Present_retains_intersecting_layers_witness :
    (fresh.Present 1 (MosaicDisplay.output true 100 100 60) 100 1 0 [10, 11, 12] none
      (fun p => if p = 10 then MosaicDisplay.layer 0 50
        else if p = 11 then MosaicDisplay.layer 150 180 else MosaicDisplay.layer 250 300) 5).1.layers_
      = [11] := by
  rw [(Present_retains_intersecting_layers fresh 1 (MosaicDisplay.output true 100 100 60) 100 1 0
    [10, 11, 12] none (fun p => if p = 10 then MosaicDisplay.layer 0 50
        else if p = 11 then MosaicDisplay.layer 150 180 else MosaicDisplay.layer 250 300) 5).1]
  decide

/-- C5 (amended). Tile filter boundary: a layer of the incoming list whose display frame has
right == L (exactly touching the low boundary) is not excluded by the low-side test; it is
retained exactly when its left edge is not greater than the right constraint L + W. -/
theorem Present_touching_layer_retained (m : MosaicDisplayPresenter) (display : Ptr)
    (nd : NativeDisplay) (L total_displays display_id : Int) (source_layers : List Ptr)
    (call_back : Option Ptr) (heap : Ptr → HwcLayer) (out_fence : Int) (p : Ptr)
    (hp : p ∈ source_layers) (htouch : (heap p).display_frame_.right = L) :
    p ∈ (m.Present display nd L total_displays display_id source_layers call_back heap
        out_fence).1.layers_ ↔
      (heap p).display_frame_.left ≤ right_constraint L nd.width := by
  rw [Present_layers, List.mem_filter]
  simp only [hp, true_and, decide_eq_true_eq, htouch, lt_irrefl, false_or, not_lt, gt_iff_lt]

/-- C5 (amended), at a concrete frame: with L = 100 and W = 100 the layer spanning
[0, 100] is retained. -/
theorem Present_touching_layer_retained_witness :
    (10 : Ptr) ∈ [10] ∧ ((fun _ : Ptr => MosaicDisplay.layer 0 100) 10).display_frame_.right = 100 ∧
    ((10 : Ptr) ∈ (fresh.Present 1 (MosaicDisplay.output true 100 100 60) 100 1 0 [10] none
        (fun _ => MosaicDisplay.layer 0 100) 5).1.layers_ ↔
      ((fun _ : Ptr => MosaicDisplay.layer 0 100) 10).display_frame_.left ≤
        right_constraint 100 (MosaicDisplay.output true 100 100 60).width) :=
  ⟨by decide, rfl,
    Present_touching_layer_retained fresh 1 (MosaicDisplay.output true 100 100 60) 100 1 0 [10]
      none (fun _ => MosaicDisplay.layer 0 100) 5 10 (by decide) rfl⟩

/-- C5 as stated fails: with L = 100 and W = 100, the layer spanning [0, 100], whose right
edge equals L, is in the retained subset. -/
theorem touching_layer_not_excluded :
    (MosaicDisplay.layer 0 100).display_frame_.right = 100 ∧
    (10 : Ptr) ∈ (fresh.Present 1 (MosaicDisplay.output true 100 100 60) 100 1 0 [10] none
        (fun _ => MosaicDisplay.layer 0 100) 5).1.layers_ := by
  decide

end MosaicDisplayPresenter

namespace MosaicDisplay

/-! ## Concrete runs -/

/-- C1, at a concrete cycle: three outputs reporting 10, 20 and 33 produce no callback after
two calls and one callback with timestamp 63 / 3 = 21 on the third. -/
theorem VSyncUpdate_full_cycle_witness :
    (threeOutputs.VSyncUpdates [10, 20]).vsync_calls = [] ∧
    (threeOutputs.VSyncUpdates [10, 20, 33]).vsync_calls = [⟨7, 5, 21⟩] ∧
    (threeOutputs.VSyncUpdates [10, 20, 33]).vsync_counter_ = 3 ∧
    (threeOutputs.VSyncUpdates [10, 20, 33]).vsync_timestamp_ = 0 ∧
    (threeOutputs.VSyncUpdates [10, 20, 33]).pending_vsync_ = false :=
  have h := VSyncUpdate_full_cycle threeOutputs 7 [10, 20, 33] rfl rfl (by decide) (by decide)
    rfl rfl rfl (by decide) (by decide)
  ⟨h.1 2 (by decide), h.2⟩

/-- C2 fails on the code: in a cycle of N = 3 outputs, after k = 2 updates with timestamps
10 and 20 the counter is 1; a `HotPlugUpdate` that then sees one connected output invokes the
upstream vsync callback once with timestamp 30, the accumulated sum divided by the connected
count 1, where the average of the two accumulated timestamps is 30 / 2 = 15. -/
theorem HotPlugUpdate_flush_divides_by_connected_count :
    oneLeft.vsync_counter_ = 1 ∧ oneLeft.pending_vsync_ = true ∧
    oneLeft.vsync_timestamp_ = 10 + 20 ∧ connectedCount oneLeft = 1 ∧
    (oneLeft.HotPlugUpdate false).vsync_calls = [⟨7, 5, 30⟩] ∧
    Int.tdiv (10 + 20) 2 = 15 := by
  decide

/-- C3, on a concrete run: two outputs connect, one reports a vsync, output 2 drops and a
second hotplug is processed; the divisor is then the last observed count 1 and so is the
counter. -/
theorem vsync_aggregation_invariant_witness :
    (armed.run [.HotPlugUpdate true, .VSyncUpdate 10,
      .outputs (fun p => if p = 1 then output true 1920 1080 60 else output false 1280 720 60),
      .HotPlugUpdate false]).vsync_divisor_ = 1 ∧
    (armed.run [.HotPlugUpdate true, .VSyncUpdate 10,
      .outputs (fun p => if p = 1 then output true 1920 1080 60 else output false 1280 720 60),
      .HotPlugUpdate false]).vsync_counter_ ≤ 1 :=
  have h := vsync_aggregation_invariant armed [.HotPlugUpdate true, .VSyncUpdate 10,
      .outputs (fun p => if p = 1 then output true 1920 1080 60 else output false 1280 720 60),
      .HotPlugUpdate false] (by decide) rfl rfl
  ⟨h.1, h.2.1⟩

/-- C6 fails on the code: with power on and two workers in the registry, one `Present` call
returns true with retire fence -1 but issues a single tile `Present`, to the first worker
(ordinal 0, total 2, left constraint 0); the second worker, which would receive ordinal 1 and
left constraint 1920, is not presented to. -/
theorem Present_dispatches_first_worker_only :
    twoTiles.power_mode_ = kOn ∧ twoTiles.mosaic_presenters_.length = 2 ∧
    (twoTiles.Present [10] none (fun _ => 5)).map (fun r => r.dispatched)
      = some [⟨1, 0, 2, 0, [10]⟩] ∧
    (twoTiles.Present [10] none (fun _ => 5)).map (fun r => (r.ret, r.retire_fence))
      = some (true, some (-1)) ∧
    (twoTiles.Present [10] none (fun _ => 5)).map
      (fun r => r.state.mosaic_presenters_.map (fun e => (e.1, e.2.submitted)))
      = some [(1, [[10]]), (2, [])] := by
  decide

/-- C7, on concrete output sets: with one of three outputs connected `IsConnected` is true. -/
theorem IsConnected_iff_some_output_connected_witness : oneLeft.IsConnected = true :=
  (IsConnected_iff_some_output_connected oneLeft (by decide)).2.2.2 1 (by decide) rfl

/-- C8, on the two-output mosaic of widths 1920/1280 and heights 1080/720: width 3200 and
height 1080. -/
theorem SetActiveConfig_geometry_witness :
    ((idle twoOutputsHeap (fun _ => layer 0 0) [1, 2]).SetActiveConfig 0).1.width_ = 3200 ∧
    ((idle twoOutputsHeap (fun _ => layer 0 0) [1, 2]).SetActiveConfig 0).1.height_ = 1080 :=
  (SetActiveConfig_geometry (idle twoOutputsHeap (fun _ => layer 0 0) [1, 2]) 0
    (by decide)).2.2.2 1 2 rfl rfl rfl rfl rfl

/-- C9 fails on the code: on two outputs at 60 Hz and 96 dpi, a first `SetActiveConfig(0)`
leaves refresh 60 and dpi 96, and a second `SetActiveConfig(0)` leaves refresh 90 and dpi 144:
the refresh and dpi members are not cleared before the outputs' values are added, unlike width
and height, which stay 3200 and 1080. -/
theorem SetActiveConfig_twice_accumulates :
    ((idle twoOutputsHeap (fun _ => layer 0 0) [1, 2]).SetActiveConfig 0).1.refresh_ = 60 ∧
    ((idle twoOutputsHeap (fun _ => layer 0 0) [1, 2]).SetActiveConfig 0).1.dpix_ = 96 ∧
    ((idle twoOutputsHeap (fun _ => layer 0 0) [1, 2]).SetActiveConfig 0).1.dpiy_ = 96 ∧
    ((idle twoOutputsHeap (fun _ => layer 0 0) [1, 2]).SetActiveConfig 0).1.width_ = 3200 ∧
    (((idle twoOutputsHeap (fun _ => layer 0 0) [1, 2]).SetActiveConfig 0).1.SetActiveConfig
      0).1.refresh_ = 90 ∧
    (((idle twoOutputsHeap (fun _ => layer 0 0) [1, 2]).SetActiveConfig 0).1.SetActiveConfig
      0).1.dpix_ = 144 ∧
    (((idle twoOutputsHeap (fun _ => layer 0 0) [1, 2]).SetActiveConfig 0).1.SetActiveConfig
      0).1.dpiy_ = 144 ∧
    (((idle twoOutputsHeap (fun _ => layer 0 0) [1, 2]).SetActiveConfig 0).1.SetActiveConfig
      0).1.width_ = 3200 := by
  decide

/-- C10 (amended), on a concrete state: with hotplug callback 8 registered for logical
display 5 and the cached state false, `HotPlugUpdate(true)` sets the cached state and invokes
the callback once with (5, true). -/
theorem HotPlugUpdate_upstream_notification_witness :
    (armed.HotPlugUpdate true).connected_ = true ∧
    (armed.HotPlugUpdate true).hotplug_calls = [⟨8, 5, true⟩] :=
  ((HotPlugUpdate_upstream_notification armed true (by decide)).2.2 (by decide) (by decide)).1
    8 rfl

/-- C10 as stated fails: with no hotplug callback registered and the cached state false,
`HotPlugUpdate(true)` falls under neither (1) nor (2), yet leaves the cached state false. -/
theorem HotPlugUpdate_unregistered_keeps_cached_state :
    (idle twoOutputsHeap (fun _ => layer 0 0) [1, 2]).hotplug_callback_ = none ∧
    (idle twoOutputsHeap (fun _ => layer 0 0) [1, 2]).connected_ = false ∧
    ((idle twoOutputsHeap (fun _ => layer 0 0) [1, 2]).HotPlugUpdate true).connected_ = false ∧
    ((idle twoOutputsHeap (fun _ => layer 0 0) [1, 2]).HotPlugUpdate true).hotplug_calls = [] := by
  decide

end MosaicDisplay


namespace MosaicDisplay

/-! ## Gating, queries and idempotence -/

/-- C16. `VSyncUpdate` gating: if vsync is disabled, or no upstream vsync callback is
registered, or divisor = 0, then `VSyncUpdate(t)` leaves the whole state as it was, for every
t: no callback is invoked and counter, divisor, accumulated timestamp and pending flag are
unchanged. -/
theorem VSyncUpdate_gated (s : MosaicDisplay) (t : Int)
    (h : s.enable_vsync_ = false ∨ s.vsync_callback_ = none ∨ s.vsync_divisor_ = 0) :
    s.VSyncUpdate t = s ∧
    (s.VSyncUpdate t).vsync_calls = s.vsync_calls ∧
    (s.VSyncUpdate t).vsync_counter_ = s.vsync_counter_ ∧
    (s.VSyncUpdate t).vsync_divisor_ = s.vsync_divisor_ ∧
    (s.VSyncUpdate t).vsync_timestamp_ = s.vsync_timestamp_ ∧
    (s.VSyncUpdate t).pending_vsync_ = s.pending_vsync_ := by
  have hs : s.VSyncUpdate t = s := by
    unfold VSyncUpdate
    cases hcb : s.vsync_callback_ with
    | none => rfl
    | some cb =>
      dsimp only
      have hcond : ¬ (s.enable_vsync_ = true ∧ s.vsync_divisor_ > 0) := by
        rintro ⟨h1, h2⟩
        rcases h with h | h | h
        · rw [h] at h1; exact Bool.noConfusion h1
        · rw [h] at hcb; exact Option.noConfusion hcb
        · omega
      rw [if_neg hcond]
  rw [hs]
  exact ⟨rfl, rfl, rfl, rfl, rfl, rfl⟩

/-- C16, on concrete states: with vsync disabled (`idle`) an update changes nothing. -/
theorem VSyncUpdate_gated_witness :
    ((idle twoOutputsHeap (fun _ => layer 0 0) [1, 2]).VSyncUpdate 17).vsync_calls = [] ∧
    ((idle twoOutputsHeap (fun _ => layer 0 0) [1, 2]).VSyncUpdate 17).vsync_timestamp_ = 0 :=
  have h := VSyncUpdate_gated (idle twoOutputsHeap (fun _ => layer 0 0) [1, 2]) 17 (Or.inl rfl)
  ⟨h.2.1, h.2.2.2.2.1⟩

/-- A value below `2 ^ 31` is unchanged by the conversion to `int32_t`. -/
theorem toInt32_of_small (n : Nat) (h : n < 2 ^ 31) : toInt32 (n : Int) = n := by
  unfold toInt32
  omega

/-- C14. `GetDisplayAttribute`: for every config argument it returns true with the cached
composite width, height, refresh, dpiX or dpiY (as the `int32_t` the out-parameter holds;
the value itself whenever it is below 2^31) for `kWidth`, `kHeight`, `kRefreshRate`, `kDpiX`,
`kDpiY`, and for every other attribute it returns false and stores -1; it never modifies the
controller state. -/
theorem GetDisplayAttribute_cached (s : MosaicDisplay) (config : Nat) :
    s.GetDisplayAttribute config .kWidth = (s, toInt32 s.width_, true) ∧
    s.GetDisplayAttribute config .kHeight = (s, toInt32 s.height_, true) ∧
    s.GetDisplayAttribute config .kRefreshRate = (s, toInt32 s.refresh_, true) ∧
    s.GetDisplayAttribute config .kDpiX = (s, toInt32 s.dpix_, true) ∧
    s.GetDisplayAttribute config .kDpiY = (s, toInt32 s.dpiy_, true) ∧
    (∀ raw, s.GetDisplayAttribute config (.other raw) = (s, -1, false)) ∧
    (∀ a, (s.GetDisplayAttribute config a).1 = s) ∧
    (∀ n : Nat, n < 2 ^ 31 → toInt32 (n : Int) = n) := by
  refine ⟨rfl, rfl, rfl, rfl, rfl, fun _ => rfl, fun a => ?_, toInt32_of_small⟩
  cases a <;> rfl

/-- C12 fails on the code: the call with a null buffer reports size 6, but the following
call with a buffer of that capacity copies only the 5 characters "Mosai" and reports size 5
(the sixth byte of the buffer is left as it was), because the copy is capped at
`length - 1`. -/
theorem GetDisplayName_round_trip_truncates :
    (∀ size, GetDisplayName size none = (6, none, true)) ∧
    GetDisplayName 6 (some ['x', 'x', 'x', 'x', 'x', 'x'])
      = (5, some ['M', 'o', 's', 'a', 'i', 'x'], true) ∧
    display_name.toList = ['M', 'o', 's', 'a', 'i', 'c'] := by
  refine ⟨fun _ => rfl, by decide, by decide⟩

/-- C13 as stated fails: with a 4-byte buffer (size = 4 on entry) the call copies 4 bytes
of the name, "Mosa", not at most 3. -/
theorem GetDisplayName_four_byte_buffer :
    GetDisplayName 4 (some ['x', 'x', 'x', 'x']) = (4, some ['M', 'o', 's', 'a'], true) := by
  decide

/-- The buffer path of `GetDisplayName` in closed form. -/
theorem GetDisplayName_buffer (c : Nat) (buffer : List Char) :
    GetDisplayName c (some buffer) =
      (min 5 c, some (display_name.toList.take (min 5 c) ++ buffer.drop (min 5 c)), true) := by
  have hlen : display_name.length = 6 := by decide
  have hlen2 : display_name.toList.length = 6 := by decide
  have h5 : (6 - 1) % 2 ^ 32 = 5 := by norm_num
  unfold GetDisplayName strncpy
  dsimp only
  rw [hlen, h5, hlen2]
  have hz : min 5 c - 6 = 0 := by omega
  rw [hz]
  simp

/-- C13 (amended). With a 4-byte buffer (size = 4 on entry) `GetDisplayName` copies the 4
bytes "Mosa" of the name into the buffer, and for every capacity c the number of bytes
written never exceeds c: the reported size n is at most c, the first n bytes of the buffer
are the first n characters of the name and every byte after them is untouched. -/
theorem GetDisplayName_writes_within_capacity :
    (∀ buffer : List Char, buffer.length = 4 →
      GetDisplayName 4 (some buffer) = (4, some ['M', 'o', 's', 'a'], true)) ∧
    (∀ (c : Nat) (buffer : List Char),
      (GetDisplayName c (some buffer)).1 ≤ c ∧
      ∃ out, (GetDisplayName c (some buffer)).2.1 = some out ∧
        out.take (GetDisplayName c (some buffer)).1
          = display_name.toList.take (GetDisplayName c (some buffer)).1 ∧
        out.drop (GetDisplayName c (some buffer)).1
          = buffer.drop (GetDisplayName c (some buffer)).1) := by
  refine ⟨fun buffer hb => ?_, fun c buffer => ?_⟩
  · rw [GetDisplayName_buffer]
    have hd : buffer.drop 4 = [] := List.drop_eq_nil_of_le (by omega)
    have hm : min 5 4 = 4 := by decide
    have ht : display_name.toList.take 4 = ['M', 'o', 's', 'a'] := by decide
    rw [hm, hd, ht]
    rfl
  · rw [GetDisplayName_buffer]
    dsimp only
    have hlen : (display_name.toList.take (min 5 c)).length = min 5 c := by
      rw [List.length_take]
      have : display_name.toList.length = 6 := by decide
      omega
    refine ⟨Nat.min_le_right _ _, _, rfl, ?_, ?_⟩
    · rw [List.take_append_of_le_length (by omega), List.take_of_length_le (by omega)]
    · rw [List.drop_append_of_le_length (by omega), List.drop_eq_nil_of_le (by omega)]
      rfl

end MosaicDisplay

namespace VblankEventHandler

/-- C17. `VblankEventHandler::VSyncControl` is idempotent: called with the value the
enabled flag already has it returns 0 and leaves the handler (enabled flag and last timestamp
included) unchanged, so a second `VSyncControl(e)` after a first one changes nothing, also
when a page-flip event updated the last timestamp in between; when the flag differs the call
sets enabled = e and last timestamp = -1 and returns 0. -/
theorem VSyncControl_idempotent (v : VblankEventHandler) (e : Bool) :
    (v.enabled_ = e → v.VSyncControl e = (v, 0)) ∧
    (v.enabled_ ≠ e →
      (v.VSyncControl e).1.enabled_ = e ∧ (v.VSyncControl e).1.last_timestamp_ = -1 ∧
      (v.VSyncControl e).2 = 0) ∧
    (v.VSyncControl e).1.VSyncControl e = ((v.VSyncControl e).1, 0) ∧
    (∀ sec usec,
      ((v.VSyncControl e).1.HandlePageFlipEvent sec usec).VSyncControl e
        = ((v.VSyncControl e).1.HandlePageFlipEvent sec usec, 0) ∧
      (((v.VSyncControl e).1.HandlePageFlipEvent sec usec).VSyncControl e).1.last_timestamp_
        = ((v.VSyncControl e).1.HandlePageFlipEvent sec usec).last_timestamp_) := by
  have hsame : ∀ w : VblankEventHandler, w.enabled_ = e → w.VSyncControl e = (w, 0) := by
    intro w hw
    unfold VSyncControl
    rw [if_pos hw]
  have hen : (v.VSyncControl e).1.enabled_ = e := by
    unfold VSyncControl
    split_ifs with h
    · exact h
    · rfl
  have hflip : ∀ (w : VblankEventHandler) (sec usec : Nat),
      (w.HandlePageFlipEvent sec usec).enabled_ = w.enabled_ := by
    intro w sec usec
    unfold HandlePageFlipEvent
    dsimp only
    split
    · split_ifs <;> rfl
    · rfl
  refine ⟨hsame v, fun hne => ?_, hsame _ hen, fun sec usec => ?_⟩
  · unfold VSyncControl
    rw [if_neg hne]
    exact ⟨rfl, rfl, rfl⟩
  · have h := hsame ((v.VSyncControl e).1.HandlePageFlipEvent sec usec)
      ((hflip _ sec usec).trans hen)
    exact ⟨h, by rw [h]⟩

end VblankEventHandler

namespace MosaicDisplayPresenter

/-! ## Release-fence lifetime -/

/-- Fence bookkeeping of `HandleRoutine` on its two return paths. -/
theorem HandleRoutine_fence (m : MosaicDisplayPresenter) (nd : NativeDisplay)
    (heap : Ptr → HwcLayer) (out_fence : Int) :
    ((m.HandleRoutine nd heap out_fence).1.layers_ = [] →
      (m.HandleRoutine nd heap out_fence).1.release_fence_ = m.release_fence_ ∧
      (m.HandleRoutine nd heap out_fence).1.closed_fds = m.closed_fds ∧
      (m.HandleRoutine nd heap out_fence).1.cevent_ = m.cevent_) ∧
    ((m.HandleRoutine nd heap out_fence).1.layers_ ≠ [] →
      (m.HandleRoutine nd heap out_fence).1.release_fence_ = out_fence ∧
      (m.HandleRoutine nd heap out_fence).1.closed_fds =
        (if m.release_fence_ > 0 then m.closed_fds ++ [m.release_fence_] else m.closed_fds) ∧
      (m.HandleRoutine nd heap out_fence).1.cevent_ = m.cevent_ + 1) := by
  unfold HandleRoutine
  dsimp only [ClearLayers]
  split_ifs <;> simp_all [List.isEmpty_iff]

/-- A frame retains a layer exactly when it `submits`. -/
theorem presentFrame_layers_ne_nil (m : MosaicDisplayPresenter) (f : TileFrame) :
    (m.presentFrame f).layers_ ≠ [] ↔ f.submits = true := by
  unfold presentFrame TileFrame.submits Present
  rw [HandleRoutine_layers]
  dsimp only
  rw [List.any_eq_true, ne_eq, List.filter_eq_nil_iff]
  push_neg
  rfl

/-- The fence the worker holds, if any. -/
theorem presentFrame_fence (m : MosaicDisplayPresenter) (f : TileFrame) :
    (f.submits = false →
      (m.presentFrame f).release_fence_ = m.release_fence_ ∧
      (m.presentFrame f).closed_fds = m.closed_fds) ∧
    (f.submits = true →
      (m.presentFrame f).release_fence_ = f.out_fence ∧
      (m.presentFrame f).closed_fds =
        (if m.release_fence_ > 0 then m.closed_fds ++ [m.release_fence_] else m.closed_fds)) := by
  have hl := presentFrame_layers_ne_nil m f
  have hf := HandleRoutine_fence
    { m with
      native_display_ := f.display
      left_constraint_ := f.left_constraint
      total_displays_ := f.total_displays
      id_ := f.display_id
      source_layers_ := f.source_layers
      callback_ := f.call_back } f.nd f.heap f.out_fence
  have hdef : m.presentFrame f = (HandleRoutine
    { m with
      native_display_ := f.display
      left_constraint_ := f.left_constraint
      total_displays_ := f.total_displays
      id_ := f.display_id
      source_layers_ := f.source_layers
      callback_ := f.call_back } f.nd f.heap f.out_fence).1 := rfl
  rw [← hdef] at hf
  refine ⟨fun hs => ?_, fun hs => ?_⟩
  · have hnil : (m.presentFrame f).layers_ = [] := by
      by_contra hne
      rw [hl.1 hne] at hs
      exact Bool.noConfusion hs
    exact ⟨(hf.1 hnil).1, (hf.1 hnil).2.1⟩
  · exact ⟨(hf.2 (hl.2 hs)).1, (hf.2 (hl.2 hs)).2.1⟩


/-- `ExitThread` closes the held fence, if any, and nothing else. -/
theorem ExitThread_closed (m : MosaicDisplayPresenter) :
    m.ExitThread.closed_fds = m.closed_fds ++ heldFence m := by
  unfold ExitThread heldFence
  dsimp only [ClearLayers]
  split_ifs <;> simp

/-- Over a sequence of frames, the fences closed so far together with the one still held are
the ones closed or held before plus the ones captured, in order. -/
theorem presentFrames_fences (fs : List TileFrame) : ∀ m : MosaicDisplayPresenter,
    (∀ x ∈ capturedFences fs, 0 < x) →
    (m.presentFrames fs).closed_fds ++ heldFence (m.presentFrames fs) =
      m.closed_fds ++ heldFence m ++ capturedFences fs ∧
    (m.presentFrames fs).release_fence_ = (capturedFences fs).getLastD m.release_fence_ := by
  induction fs with
  | nil => intro m _; simp [presentFrames, capturedFences]
  | cons f fs ih =>
    intro m hpos
    have hrun : m.presentFrames (f :: fs) = (m.presentFrame f).presentFrames fs := rfl
    rw [hrun]
    obtain ⟨hno, hyes⟩ := presentFrame_fence m f
    by_cases hs : f.submits = true
    · have hcap : capturedFences (f :: fs) = f.out_fence :: capturedFences fs := by
        simp [capturedFences, List.filter_cons, hs]
      rw [hcap] at hpos ⊢
      obtain ⟨h1, h2⟩ := hyes hs
      obtain ⟨i1, i2⟩ := ih (m.presentFrame f) (fun x hx => hpos x (List.mem_cons_of_mem _ hx))
      have hout : 0 < f.out_fence := hpos _ (List.mem_cons_self _ _)
      have hheld : heldFence (m.presentFrame f) = [f.out_fence] := by
        unfold heldFence; rw [h1, if_pos hout]
      have hclosed : (m.presentFrame f).closed_fds = m.closed_fds ++ heldFence m := by
        rw [h2]; unfold heldFence; split_ifs <;> simp
      refine ⟨?_, ?_⟩
      · rw [i1, hheld, hclosed]; simp
      · rw [i2, h1, List.getLastD_cons]
    · have hs2 : f.submits = false := by simpa using hs
      have hcap : capturedFences (f :: fs) = capturedFences fs := by
        simp [capturedFences, List.filter_cons, hs2]
      rw [hcap] at hpos ⊢
      obtain ⟨h1, h2⟩ := hno hs2
      obtain ⟨i1, i2⟩ := ih (m.presentFrame f) hpos
      have hheld : heldFence (m.presentFrame f) = heldFence m := by
        unfold heldFence; rw [h1]
      exact ⟨by rw [i1, hheld, h2], by rw [i2, h1]⟩

/-- C18. Release-fence lifetime of a tile worker: over any sequence of tile `Present`
calls followed by `ExitThread`, on a worker that holds no fence at the start and whose output
hands back pairwise distinct positive fences for the submitting frames, the descriptors closed
are exactly the captured fences, each once and in capture order: all but the last are closed
while frames are presented (each when the next submitting frame replaces it), the last one is
still held after the last frame and is closed by `ExitThread`; no fence is closed twice; and a
frame with an empty retained set neither closes nor replaces the held fence. -/
theorem release_fences_closed_once (m : MosaicDisplayPresenter) (fs : List TileFrame)
    (hnew : m.release_fence_ ≤ 0) (hpos : ∀ x ∈ capturedFences fs, 0 < x)
    (hdistinct : (capturedFences fs).Nodup) :
    (m.presentFrames fs).ExitThread.closed_fds = m.closed_fds ++ capturedFences fs ∧
    (∀ x ∈ capturedFences fs,
      (((m.presentFrames fs).ExitThread.closed_fds).drop m.closed_fds.length).count x = 1) ∧
    (((m.presentFrames fs).ExitThread.closed_fds).drop m.closed_fds.length).Nodup ∧
    (m.presentFrames fs).closed_fds = m.closed_fds ++ (capturedFences fs).dropLast ∧
    (m.presentFrames fs).release_fence_ = (capturedFences fs).getLastD m.release_fence_ ∧
    (∀ (w : MosaicDisplayPresenter) (f : TileFrame), f.submits = false →
      (w.presentFrame f).release_fence_ = w.release_fence_ ∧
      (w.presentFrame f).closed_fds = w.closed_fds) := by
  obtain ⟨h1, h2⟩ := presentFrames_fences fs m hpos
  have hheld0 : heldFence m = [] := by
    unfold heldFence; rw [if_neg (by omega)]
  rw [hheld0, List.append_nil] at h1
  have hexit : (m.presentFrames fs).ExitThread.closed_fds = m.closed_fds ++ capturedFences fs := by
    rw [ExitThread_closed, h1]
  have hdrop : ((m.presentFrames fs).ExitThread.closed_fds).drop m.closed_fds.length
      = capturedFences fs := by
    rw [hexit, List.drop_left]
  refine ⟨hexit, fun x hx => ?_, ?_, ?_, h2, fun w f hf => (presentFrame_fence w f).1 hf⟩
  · rw [hdrop]; exact List.count_eq_one_of_mem hdistinct hx
  · rw [hdrop]; exact hdistinct
  · by_cases hnil : capturedFences fs = []
    · rw [hnil] at h1 h2 ⊢
      have hheld : heldFence (m.presentFrames fs) = [] := by
        unfold heldFence; rw [h2, List.getLastD_nil, if_neg (by omega)]
      rw [hheld] at h1
      simpa using h1
    · have hlast : 0 < (capturedFences fs).getLast hnil := hpos _ (List.getLast_mem hnil)
      have hrf : (m.presentFrames fs).release_fence_ = (capturedFences fs).getLast hnil := by
        rw [h2, List.getLastD_eq_getLast?, List.getLast?_eq_getLast _ hnil]; rfl
      have hheld : heldFence (m.presentFrames fs) = [(capturedFences fs).getLast hnil] := by
        unfold heldFence; rw [hrf, if_pos hlast]
      rw [hheld] at h1
      have hsplit : m.closed_fds ++ capturedFences fs =
          (m.closed_fds ++ (capturedFences fs).dropLast) ++ [(capturedFences fs).getLast hnil] := by
        rw [List.append_assoc, List.dropLast_append_getLast hnil]
      exact List.append_inj_left' (h1.trans hsplit) rfl

/-- C18, on a concrete sequence: frames handing back fences 5, 6 and 7, of which the second
retains no layer; fence 5 is closed when the third frame replaces it, fence 7 by
`ExitThread`, and fence 6 is never captured. -/
theorem release_fences_closed_once_witness :
    (fresh.presentFrames [frame 0 50 5, frame 200 300 6, frame 10 20 7]).closed_fds = [5] ∧
    (fresh.presentFrames [frame 0 50 5, frame 200 300 6, frame 10 20 7]).ExitThread.closed_fds
      = [5, 7] :=
  have h := release_fences_closed_once fresh [frame 0 50 5, frame 200 300 6, frame 10 20 7]
    (by decide) (by decide) (by decide)
  ⟨h.2.2.2.1, h.1⟩

end MosaicDisplayPresenter

namespace MosaicDisplay

/-! ## Worker registry -/

/-- `find(nd) == end()` holds exactly when `nd` is not a key. -/
theorem lookup_isNone_iff (reg : List (Ptr × MosaicDisplayPresenter)) (k : Ptr) :
    (reg.lookup k).isNone = true ↔ k ∉ reg.map Prod.fst := by
  rw [Option.isNone_iff_eq_none, List.lookup_eq_none_iff]
  simp only [List.mem_map, not_exists, not_and, bne_iff_ne, ne_eq, Prod.forall]
  constructor
  · intro h a b hab hk; exact h a b hab hk.symm
  · intro h a b hab hk; exact h a b hab hk.symm

/-- `find(nd) != end()` holds exactly when `nd` is a key. -/
theorem lookup_isSome_iff (reg : List (Ptr × MosaicDisplayPresenter)) (k : Ptr) :
    (reg.lookup k).isSome = true ↔ k ∈ reg.map Prod.fst := by
  have h := lookup_isNone_iff reg k
  cases hl : reg.lookup k with
  | none => rw [hl] at h; simp only [Option.isNone_none, true_iff] at h; simp [h]
  | some v => rw [hl] at h; simp only [Option.isNone_some, false_iff, not_not, Bool.false_eq_true] at h; simp [h]

/-- A member call on the worker at a key keeps the keys. -/
theorem keys_registryAt (k : Ptr) (f : MosaicDisplayPresenter → MosaicDisplayPresenter)
    (reg : List (Ptr × MosaicDisplayPresenter)) :
    (registryAt k f reg).map Prod.fst = reg.map Prod.fst := by
  unfold registryAt
  rw [List.map_map]
  apply List.map_congr_left
  intro e _
  simp only [Function.comp]
  split_ifs <;> rfl

/-- Keys after `emplace`. -/
theorem mem_keys_registryEmplace (k : Ptr) (v : MosaicDisplayPresenter)
    (reg : List (Ptr × MosaicDisplayPresenter)) (k1 : Ptr) :
    k1 ∈ (registryEmplace k v reg).map Prod.fst ↔ k1 = k ∨ k1 ∈ reg.map Prod.fst := by
  induction reg with
  | nil => simp [registryEmplace]
  | cons e reg ih =>
    obtain ⟨k2, v2⟩ := e
    unfold registryEmplace
    split_ifs with h1 h2
    · simp
    · subst h2; simp
    · simp only [List.map_cons, List.mem_cons, ih]
      tauto

/-- `emplace` keeps the registry in key order. -/
theorem sorted_registryEmplace (k : Ptr) (v : MosaicDisplayPresenter)
    (reg : List (Ptr × MosaicDisplayPresenter))
    (h : (reg.map Prod.fst).Pairwise (· < ·)) :
    ((registryEmplace k v reg).map Prod.fst).Pairwise (· < ·) := by
  induction reg with
  | nil => simp [registryEmplace]
  | cons e reg ih =>
    obtain ⟨k2, v2⟩ := e
    simp only [List.map_cons, List.pairwise_cons] at h
    unfold registryEmplace
    split_ifs with h1 h2
    · simp only [List.map_cons, List.pairwise_cons, List.mem_cons]
      refine ⟨?_, h⟩
      rintro a (rfl | ha)
      · exact h1
      · exact lt_trans h1 (h.1 a ha)
    · simp only [List.map_cons, List.pairwise_cons]; exact h
    · simp only [List.map_cons, List.pairwise_cons]
      refine ⟨fun a ha => ?_, ih h.2⟩
      rcases (mem_keys_registryEmplace k v reg a).1 ha with ha | ha
      · show k2 < a
        rw [ha]
        exact lt_of_le_of_ne (not_lt.1 h1) (fun h => h2 h.symm)
      · exact h.1 a ha

/-- Keys after `erase`. -/
theorem mem_keys_registryErase (k : Ptr) (reg : List (Ptr × MosaicDisplayPresenter)) (k1 : Ptr) :
    k1 ∈ (registryErase k reg).map Prod.fst ↔ k1 ∈ reg.map Prod.fst ∧ k1 ≠ k := by
  unfold registryErase
  simp only [List.mem_map, List.mem_filter, decide_eq_true_eq]
  constructor
  · rintro ⟨e, ⟨he, hne⟩, rfl⟩; exact ⟨⟨e, he, rfl⟩, hne⟩
  · rintro ⟨⟨e, he, rfl⟩, hne⟩; exact ⟨e, ⟨he, hne⟩, rfl⟩

/-- `erase` keeps the registry in key order. -/
theorem sorted_registryErase (k : Ptr) (reg : List (Ptr × MosaicDisplayPresenter))
    (h : (reg.map Prod.fst).Pairwise (· < ·)) :
    ((registryErase k reg).map Prod.fst).Pairwise (· < ·) := by
  unfold registryErase
  exact List.Pairwise.sublist (List.Sublist.map _ (List.filter_sublist _)) h

/-- A member call at key `k` leaves the workers at other keys alone. -/
theorem mem_registryAt_of_ne (k : Ptr) (f : MosaicDisplayPresenter → MosaicDisplayPresenter)
    (reg : List (Ptr × MosaicDisplayPresenter)) (k1 : Ptr) (m : MosaicDisplayPresenter)
    (h : (k1, m) ∈ reg) (hne : k1 ≠ k) : (k1, m) ∈ registryAt k f reg := by
  unfold registryAt
  rw [List.mem_map]
  exact ⟨(k1, m), h, by simp [hne]⟩

/-- A member call at key `k` is applied to the worker at `k`. -/
theorem mem_registryAt_self (k : Ptr) (f : MosaicDisplayPresenter → MosaicDisplayPresenter)
    (reg : List (Ptr × MosaicDisplayPresenter)) (m : MosaicDisplayPresenter)
    (h : (k, m) ∈ reg) : (k, f m) ∈ registryAt k f reg := by
  unfold registryAt
  rw [List.mem_map]
  exact ⟨(k, m), h, by simp⟩

/-- `emplace` keeps every worker already registered. -/
theorem mem_registryEmplace_of_mem (k : Ptr) (v : MosaicDisplayPresenter)
    (reg : List (Ptr × MosaicDisplayPresenter)) (e : Ptr × MosaicDisplayPresenter)
    (h : e ∈ reg) : e ∈ registryEmplace k v reg := by
  induction reg with
  | nil => exact absurd h (List.not_mem_nil _)
  | cons e2 reg ih =>
    obtain ⟨k2, v2⟩ := e2
    unfold registryEmplace
    split_ifs with h1 h2
    · exact List.mem_cons_of_mem _ h
    · exact h
    · rcases List.mem_cons.1 h with rfl | h'
      · exact List.mem_cons_self _ _
      · exact List.mem_cons_of_mem _ (ih h')

/-- `erase(k)` keeps the workers at other keys. -/
theorem mem_registryErase_of_ne (k : Ptr) (reg : List (Ptr × MosaicDisplayPresenter))
    (k1 : Ptr) (m : MosaicDisplayPresenter) (h : (k1, m) ∈ reg) (hne : k1 ≠ k) :
    (k1, m) ∈ registryErase k reg := by
  unfold registryErase
  rw [List.mem_filter]
  exact ⟨h, by simpa using hne⟩


/-- One iteration of the reconciliation loop: what it does to the registry and to the
trace of removed workers, and what it keeps. -/
theorem reconcile_step (nd : Ptr) (rest : List Ptr) (i : Nat) (s : MosaicDisplay) :
    ∃ s1 : MosaicDisplay,
      Present.reconcile (nd :: rest) i s = Present.reconcile rest ((i + 1) % 2 ^ 32) s1 ∧
      s1.displays = s.displays ∧ s1.physical_displays_ = s.physical_displays_ ∧
      s1.power_mode_ = s.power_mode_ ∧ s1.layer_heap = s.layer_heap ∧
      ((s.displays nd).connected = true →
        s1.retired = s.retired ∧
        (nd ∉ registryKeys s → s1.mosaic_presenters_ =
          registryAt nd MosaicDisplayPresenter.Initialize
            (registryEmplace nd MosaicDisplayPresenter.fresh s.mosaic_presenters_)) ∧
        (nd ∈ registryKeys s → s1.mosaic_presenters_ = s.mosaic_presenters_)) ∧
      (¬ (s.displays nd).connected = true →
        (nd ∈ registryKeys s →
          s1.mosaic_presenters_ =
            registryErase nd (registryAt nd MosaicDisplayPresenter.ExitThread s.mosaic_presenters_) ∧
          s1.retired = s.retired ++
            (registryAt nd MosaicDisplayPresenter.ExitThread s.mosaic_presenters_).filter
              (fun e => e.1 = nd)) ∧
        (nd ∉ registryKeys s →
          s1.mosaic_presenters_ = s.mosaic_presenters_ ∧ s1.retired = s.retired)) := by
  have hnone := lookup_isNone_iff s.mosaic_presenters_ nd
  have hsome := lookup_isSome_iff s.mosaic_presenters_ nd
  by_cases hc : (s.displays nd).connected = true
  · by_cases hk : nd ∈ registryKeys s
    · have hl : ¬ (s.mosaic_presenters_.lookup nd).isNone = true := fun h => (hnone.1 h) hk
      by_cases hr : (0 : Int) < toInt32 (s.displays nd).refresh
      · refine ⟨{ s with preferred_display_index_ := i }, ?_, rfl, rfl, rfl, rfl,
          fun _ => ⟨rfl, fun h => absurd hk h, fun _ => rfl⟩, fun h => absurd hc h⟩
        rw [Present.reconcile]
        simp only [hc, hl, hr, if_true, if_false, Bool.false_eq_true, reduceIte]
      · refine ⟨s, ?_, rfl, rfl, rfl, rfl,
          fun _ => ⟨rfl, fun h => absurd hk h, fun _ => rfl⟩, fun h => absurd hc h⟩
        rw [Present.reconcile]
        simp only [hc, hl, hr, if_true, if_false, Bool.false_eq_true, reduceIte]
    · have hl : (s.mosaic_presenters_.lookup nd).isNone = true := hnone.2 hk
      by_cases hr : (0 : Int) < toInt32 (s.displays nd).refresh
      · refine ⟨{ s with
            mosaic_presenters_ := registryAt nd MosaicDisplayPresenter.Initialize
              (registryEmplace nd MosaicDisplayPresenter.fresh s.mosaic_presenters_)
            preferred_display_index_ := i }, ?_, rfl, rfl, rfl, rfl,
          fun _ => ⟨rfl, fun _ => rfl, fun h => absurd h hk⟩, fun h => absurd hc h⟩
        rw [Present.reconcile]
        simp only [hc, hl, hr, if_true, if_false, Bool.false_eq_true, reduceIte]
      · refine ⟨{ s with
            mosaic_presenters_ := registryAt nd MosaicDisplayPresenter.Initialize
              (registryEmplace nd MosaicDisplayPresenter.fresh s.mosaic_presenters_) },
          ?_, rfl, rfl, rfl, rfl,
          fun _ => ⟨rfl, fun _ => rfl, fun h => absurd h hk⟩, fun h => absurd hc h⟩
        rw [Present.reconcile]
        simp only [hc, hl, hr, if_true, if_false, Bool.false_eq_true, reduceIte]
  · by_cases hk : nd ∈ registryKeys s
    · have hl : (s.mosaic_presenters_.lookup nd).isSome = true := hsome.2 hk
      refine ⟨{ s with
          mosaic_presenters_ := registryErase nd
            (registryAt nd MosaicDisplayPresenter.ExitThread s.mosaic_presenters_)
          retired := s.retired ++
            (registryAt nd MosaicDisplayPresenter.ExitThread s.mosaic_presenters_).filter
              (fun e => e.1 = nd) }, ?_, rfl, rfl, rfl, rfl,
        fun h => absurd h hc, fun _ => ⟨fun _ => ⟨rfl, rfl⟩, fun h => absurd hk h⟩⟩
      rw [Present.reconcile]
      simp only [hc, hl, if_true, if_false, Bool.false_eq_true, reduceIte]
    · have hl : ¬ (s.mosaic_presenters_.lookup nd).isSome = true := fun h => hk (hsome.1 h)
      refine ⟨s, ?_, rfl, rfl, rfl, rfl,
        fun h => absurd h hc, fun _ => ⟨fun h => absurd h hk, fun _ => ⟨rfl, rfl⟩⟩⟩
      rw [Present.reconcile]
      simp only [hc, hl, if_true, if_false, Bool.false_eq_true, reduceIte]


/-- Keys of the registry after one iteration of the reconciliation loop. -/
theorem reconcile_step_keys (nd : Ptr) (rest : List Ptr) (i : Nat) (s : MosaicDisplay) :
    ∃ s1 : MosaicDisplay,
      Present.reconcile (nd :: rest) i s = Present.reconcile rest ((i + 1) % 2 ^ 32) s1 ∧
      s1.displays = s.displays ∧ s1.physical_displays_ = s.physical_displays_ ∧
      s1.power_mode_ = s.power_mode_ ∧ s1.layer_heap = s.layer_heap ∧
      (∀ k, k ∈ registryKeys s1 ↔
        ((s.displays nd).connected = true ∧ (k = nd ∨ k ∈ registryKeys s)) ∨
        (¬ (s.displays nd).connected = true ∧ k ∈ registryKeys s ∧ k ≠ nd)) ∧
      ((registryKeys s).Pairwise (· < ·) → (registryKeys s1).Pairwise (· < ·)) ∧
      (∀ e ∈ s.retired, e ∈ s1.retired) ∧
      (∀ k m, (k, m) ∈ s.mosaic_presenters_ →
        (k, m) ∈ s1.mosaic_presenters_ ∨
        (k ∉ registryKeys s1 ∧ (k, m.ExitThread) ∈ s1.retired)) := by
  obtain ⟨s1, hrun, h1, h2, h3, h4, hconn, hdis⟩ := reconcile_step nd rest i s
  refine ⟨s1, hrun, h1, h2, h3, h4, ?_, ?_, ?_, ?_⟩
  · intro k
    by_cases hc : (s.displays nd).connected = true
    · obtain ⟨-, hnew, hold⟩ := hconn hc
      by_cases hk : nd ∈ registryKeys s
      · unfold registryKeys at hk ⊢
        rw [hold hk]
        constructor
        · intro h; exact Or.inl ⟨hc, Or.inr h⟩
        · rintro (⟨-, rfl | h⟩ | ⟨hn, -⟩)
          · exact hk
          · exact h
          · exact absurd hc hn
      · unfold registryKeys at hk ⊢
        rw [hnew hk, keys_registryAt, mem_keys_registryEmplace]
        constructor
        · intro h; exact Or.inl ⟨hc, h⟩
        · rintro (⟨-, h⟩ | ⟨hn, -⟩)
          · exact h
          · exact absurd hc hn
    · obtain ⟨hrem, hkeep⟩ := hdis hc
      by_cases hk : nd ∈ registryKeys s
      · unfold registryKeys at hk ⊢
        rw [(hrem hk).1, mem_keys_registryErase, keys_registryAt]
        constructor
        · intro h; exact Or.inr ⟨hc, h⟩
        · rintro (⟨h, -⟩ | ⟨-, h⟩)
          · exact absurd h hc
          · exact h
      · unfold registryKeys at hk ⊢
        rw [(hkeep hk).1]
        constructor
        · intro h; exact Or.inr ⟨hc, h, fun e => hk (e ▸ h)⟩
        · rintro (⟨h, -⟩ | ⟨-, h, -⟩)
          · exact absurd h hc
          · exact h
  · intro hs
    by_cases hc : (s.displays nd).connected = true
    · obtain ⟨-, hnew, hold⟩ := hconn hc
      by_cases hk : nd ∈ registryKeys s
      · unfold registryKeys at hk hs ⊢; rw [hold hk]; exact hs
      · unfold registryKeys at hk hs ⊢
        rw [hnew hk, keys_registryAt]
        exact sorted_registryEmplace _ _ _ hs
    · obtain ⟨hrem, hkeep⟩ := hdis hc
      by_cases hk : nd ∈ registryKeys s
      · unfold registryKeys at hk hs ⊢
        rw [(hrem hk).1]
        apply sorted_registryErase
        rw [keys_registryAt]
        exact hs
      · unfold registryKeys at hk hs ⊢; rw [(hkeep hk).1]; exact hs
  · intro e he
    by_cases hc : (s.displays nd).connected = true
    · rw [(hconn hc).1]; exact he
    · obtain ⟨hrem, hkeep⟩ := hdis hc
      by_cases hk : nd ∈ registryKeys s
      · rw [(hrem hk).2]; exact List.mem_append_left _ he
      · rw [(hkeep hk).2]; exact he
  · intro k m hkm
    have hkmem : k ∈ registryKeys s := List.mem_map.2 ⟨(k, m), hkm, rfl⟩
    by_cases hc : (s.displays nd).connected = true
    · obtain ⟨-, hnew, hold⟩ := hconn hc
      left
      by_cases hk : nd ∈ registryKeys s
      · rw [hold hk]; exact hkm
      · rw [hnew hk]
        have hne : k ≠ nd := fun e => hk (e ▸ hkmem)
        exact mem_registryAt_of_ne _ _ _ _ _ (mem_registryEmplace_of_mem _ _ _ _ hkm) hne
    · obtain ⟨hrem, hkeep⟩ := hdis hc
      by_cases hk : nd ∈ registryKeys s
      · by_cases hne : k = nd
        · right
          subst hne
          refine ⟨?_, ?_⟩
          · unfold registryKeys
            rw [(hrem hk).1, mem_keys_registryErase]
            exact fun h => h.2 rfl
          · rw [(hrem hk).2]
            apply List.mem_append_right
            rw [List.mem_filter]
            exact ⟨mem_registryAt_self _ _ _ _ hkm, by simp⟩
        · left
          rw [(hrem hk).1]
          exact mem_registryErase_of_ne _ _ _ _ (mem_registryAt_of_ne _ _ _ _ _ hkm hne) hne
      · left; rw [(hkeep hk).1]; exact hkm


/-- The reconciliation loop over the outputs `ps`: the registry then holds a worker for
every connected output of `ps` and for every key outside `ps`, and no other; it stays in
key order; every worker it removed was exited and recorded; the others are untouched. -/
theorem reconcile_spec (ps : List Ptr) : ∀ (i : Nat) (s : MosaicDisplay),
    (Present.reconcile ps i s).displays = s.displays ∧
    (Present.reconcile ps i s).physical_displays_ = s.physical_displays_ ∧
    (Present.reconcile ps i s).power_mode_ = s.power_mode_ ∧
    (Present.reconcile ps i s).layer_heap = s.layer_heap ∧
    (∀ k, k ∈ registryKeys (Present.reconcile ps i s) ↔
      (k ∈ ps ∧ (s.displays k).connected = true) ∨ (k ∈ registryKeys s ∧ k ∉ ps)) ∧
    ((registryKeys s).Pairwise (· < ·) →
      (registryKeys (Present.reconcile ps i s)).Pairwise (· < ·)) ∧
    (∀ e ∈ s.retired, e ∈ (Present.reconcile ps i s).retired) ∧
    (∀ k m, (k, m) ∈ s.mosaic_presenters_ →
      (k, m) ∈ (Present.reconcile ps i s).mosaic_presenters_ ∨
      (k ∉ registryKeys (Present.reconcile ps i s) ∧
        (k, m.ExitThread) ∈ (Present.reconcile ps i s).retired)) := by
  induction ps with
  | nil =>
    intro i s
    refine ⟨rfl, rfl, rfl, rfl, fun k => ?_, fun h => h, fun e he => he, fun k m h => Or.inl h⟩
    show k ∈ registryKeys s ↔ _
    simp
  | cons nd rest ih =>
    intro i s
    obtain ⟨s1, hrun, h1, h2, h3, h4, hkeys, hsorted, hret, hmem⟩ := reconcile_step_keys nd rest i s
    obtain ⟨i1, i2, i3, i4, ikeys, isorted, iret, imem⟩ := ih ((i + 1) % 2 ^ 32) s1
    rw [hrun]
    have hfinal : ∀ k, k ∈ registryKeys (Present.reconcile rest ((i + 1) % 2 ^ 32) s1) ↔
        (k ∈ nd :: rest ∧ (s.displays k).connected = true) ∨
          (k ∈ registryKeys s ∧ k ∉ nd :: rest) := by
      intro k
      rw [ikeys k, hkeys k, h1]
      simp only [List.mem_cons, not_or]
      by_cases hkn : k = nd
      · subst hkn; tauto
      · tauto
    refine ⟨i1.trans h1, i2.trans h2, i3.trans h3, i4.trans h4, hfinal,
      fun h => isorted (hsorted h), fun e he => iret e (hret e he), fun k m hkm => ?_⟩
    rcases hmem k m hkm with hin | ⟨hout, hex⟩
    · exact imem k m hin
    · right
      refine ⟨?_, iret _ hex⟩
      have hkmem : k ∈ registryKeys s := List.mem_map.2 ⟨(k, m), hkm, rfl⟩
      have hk1 := hkeys k
      rw [ikeys k, h1]
      rintro (⟨hkr, hkc⟩ | ⟨hk, -⟩)
      · apply hout
        rw [hk1]
        by_cases hc : (s.displays nd).connected = true
        · exact Or.inl ⟨hc, Or.inr hkmem⟩
        · refine Or.inr ⟨hc, hkmem, fun e => ?_⟩
          rw [e] at hkc
          exact hc hkc
      · exact hout hk

/-- The dispatch loop keeps the keys of the registry and the order of its entries. -/
theorem Present_loop_keys (displays : Ptr → NativeDisplay) (size : Int) (source_layers : List Ptr)
    (call_back : Option Ptr) (fence_of : Ptr → Int) (reg : List (Ptr × MosaicDisplayPresenter)) :
    ∀ (left_constraint display_id : Int) (heap : Ptr → HwcLayer)
      (out : List (Ptr × MosaicDisplayPresenter) × (Ptr → HwcLayer) × List TileCall),
      Present.loop displays size source_layers call_back fence_of reg left_constraint display_id
        heap = some out →
      out.1.map Prod.fst = reg.map Prod.fst := by
  induction reg with
  | nil =>
    intro lc id heap out h
    rw [Present.loop] at h
    cases h
    rfl
  | cons e reg ih =>
    obtain ⟨display, mdp⟩ := e
    intro lc id heap out h
    rw [Present.loop] at h
    split at h
    · exact Option.noConfusion h
    · split_ifs at h
      · cases h; rfl
      · split at h
        · exact Option.noConfusion h
        · next reg1 heap1 calls hloop =>
          cases h
          simp only [List.map_cons]
          rw [ih _ _ _ _ hloop]


/-- `Present` with power on, in terms of the reconciled controller and the dispatch loop. -/
theorem Present_on (s : MosaicDisplay) (source_layers : List Ptr) (call_back : Option Ptr)
    (fence_of : Ptr → Int) (hpow : s.power_mode_ = kOn) :
    s.Present source_layers call_back fence_of =
      match Present.loop (Present.reconciled s).displays
          (toInt32 (((Present.reconciled s).mosaic_presenters_.length % 2 ^ 32 : Nat) : Int))
          source_layers call_back fence_of (Present.reconciled s).mosaic_presenters_ 0 0
          (Present.reconciled s).layer_heap with
      | none => none
      | some (reg, heap, calls) =>
        some ⟨{ Present.reconciled s with mosaic_presenters_ := reg, layer_heap := heap },
          some (-1), true, calls⟩ := by
  unfold Present
  rw [if_neg (fun h => h hpow)]
  rfl

/-- C11. Worker registry reconciliation: if before a `Present` call with power mode on
and the topology-change flag set every registry key is one of the owned outputs (the registry
being a map, in key order), then once lines 181-211 have run, and so after the call when it
returns, the registry's keys are exactly the owned outputs that report connected, one worker
per key, every worker that was removed has had `ExitThread` called on it, and the
topology-change flag is clear. -/
theorem Present_reconciles_registry (s : MosaicDisplay) (source_layers : List Ptr)
    (call_back : Option Ptr) (fence_of : Ptr → Int)
    (hpow : s.power_mode_ = kOn) (hflag : s.update_connected_displays_ = true)
    (hlen : s.physical_displays_.length < 2 ^ 32)
    (hsorted : (registryKeys s).Pairwise (· < ·))
    (hkeys : ∀ k ∈ registryKeys s, k ∈ s.physical_displays_) :
    (∀ k, k ∈ registryKeys (Present.reconciled s) ↔
      k ∈ s.physical_displays_ ∧ (s.displays k).connected = true) ∧
    (registryKeys (Present.reconciled s)).Pairwise (· < ·) ∧
    (∀ k m, (k, m) ∈ s.mosaic_presenters_ → k ∉ registryKeys (Present.reconciled s) →
      (k, m.ExitThread) ∈ (Present.reconciled s).retired) ∧
    (Present.reconciled s).update_connected_displays_ = false ∧
    (∀ r, s.Present source_layers call_back fence_of = some r →
      registryKeys r.state = registryKeys (Present.reconciled s) ∧
      r.state.retired = (Present.reconciled s).retired ∧
      r.state.update_connected_displays_ = false ∧
      r.state.displays = s.displays ∧
      r.state.physical_displays_ = s.physical_displays_) := by
  obtain ⟨c1, c2, -, -, ckeys, csorted, -, cmem⟩ := reconcile_spec s.iterated 0 s
  rw [iterated_eq s hlen] at c1 c2 ckeys csorted cmem
  have hrec : Present.reconciled s =
      { Present.reconcile s.physical_displays_ 0 s with update_connected_displays_ := false } := by
    unfold Present.reconciled
    rw [if_pos hflag, iterated_eq s hlen]
  have hk : registryKeys (Present.reconciled s) =
      registryKeys (Present.reconcile s.physical_displays_ 0 s) := by rw [hrec]; rfl
  have hr : (Present.reconciled s).retired =
      (Present.reconcile s.physical_displays_ 0 s).retired := by rw [hrec]
  have hd : (Present.reconciled s).displays = s.displays := by rw [hrec]; exact c1
  have hp : (Present.reconciled s).physical_displays_ = s.physical_displays_ := by
    rw [hrec]; exact c2
  refine ⟨fun k => ?_, ?_, fun k m hkm hout => ?_, by rw [hrec], fun r hret => ?_⟩
  · rw [hk, ckeys k]
    constructor
    · rintro (h | ⟨h1, h2⟩)
      · exact h
      · exact absurd (hkeys k h1) h2
    · exact fun h => Or.inl h
  · rw [hk]; exact csorted hsorted
  · rw [hk] at hout
    rw [hr]
    rcases cmem k m hkm with hin | ⟨-, hex⟩
    · exact absurd (List.mem_map.2 ⟨(k, m), hin, rfl⟩) hout
    · exact hex
  · rw [Present_on s source_layers call_back fence_of hpow] at hret
    split at hret
    · exact Option.noConfusion hret
    · next reg heap calls hloop =>
      cases hret
      refine ⟨?_, rfl, ?_, hd, hp⟩
      · exact Present_loop_keys _ _ _ _ _ _ _ _ _ _ hloop
      · show (Present.reconciled s).update_connected_displays_ = false
        rw [hrec]

/-- C11, on a concrete state: output 1 connected and output 2 disconnected, the registry
holding a worker for output 2 only; after reconciliation output 1 has a worker, output 2 has
none, and the worker of output 2 is recorded as exited. -/
theorem Present_reconciles_registry_witness :
    (1 ∈ registryKeys (Present.reconciled staleRegistry) ∧
      2 ∉ registryKeys (Present.reconciled staleRegistry)) ∧
    (2, ({ MosaicDisplayPresenter.fresh.Initialize with release_fence_ := 9 } :
        MosaicDisplayPresenter).ExitThread) ∈ (Present.reconciled staleRegistry).retired ∧
    (Present.reconciled staleRegistry).update_connected_displays_ = false :=
  have h := Present_reconciles_registry staleRegistry [10] none (fun _ => 5) rfl rfl
    (by decide) (by decide) (by decide)
  have h2 : 2 ∉ registryKeys (Present.reconciled staleRegistry) :=
    fun hc => absurd ((h.1 2).1 hc).2 (by decide)
  ⟨⟨(h.1 1).2 ⟨by decide, rfl⟩, h2⟩, h.2.2.1 2 _ (List.mem_singleton.2 rfl) h2, h.2.2.2.1⟩

end MosaicDisplay


namespace MosaicDisplay

/-! ## Stale accumulator and preferred output -/

/-- C15 fails on the code: with three outputs, the calls `VSyncUpdate(100)`,
`VSyncUpdate(101)`, the `HotPlugUpdate` for output 3 dropping, then `VSyncUpdate(102)`,
`VSyncUpdate(103)`, `VSyncUpdate(104)`, `VSyncUpdate(105)` pass strictly increasing
non-negative timestamps, yet the upstream callback receives 203 and then 104. -/
theorem vsync_delivery_not_increasing :
    (threeOutputs.run [.VSyncUpdate 100, .VSyncUpdate 101, .outputs twoLeftHeap,
      .HotPlugUpdate false, .VSyncUpdate 102, .VSyncUpdate 103, .VSyncUpdate 104,
      .VSyncUpdate 105]).vsync_calls = [⟨7, 5, 203⟩, ⟨7, 5, 104⟩] ∧
    ¬ ((203 : Int) < 104) :=
  ⟨rfl, by decide⟩

/-- C19 fails on the code: after a cycle truncated by a `HotPlugUpdate` that leaves N = 2
outputs connected, counter and divisor are 2 but the accumulator still holds 100 + 101; the
next two updates, 102 and 103, deliver one callback with (201 + 102 + 103) / 2 = 203 instead
of (102 + 103) / 2 = 102. After a flushed cycle (`oneLeft`, N = 1) the quotient 30 stays in
the accumulator and the next update, 40, delivers 70 instead of 40. -/
theorem stale_accumulator_after_hotplug :
    afterTruncatedCycle.vsync_divisor_ = 2 ∧ afterTruncatedCycle.vsync_counter_ = 2 ∧
    connectedCount afterTruncatedCycle = 2 ∧ afterTruncatedCycle.vsync_timestamp_ = 201 ∧
    afterTruncatedCycle.vsync_calls = [] ∧
    (afterTruncatedCycle.VSyncUpdates [102, 103]).vsync_calls = [⟨7, 5, 203⟩] ∧
    Int.tdiv (102 + 103) 2 = 102 ∧
    (oneLeft.HotPlugUpdate false).vsync_divisor_ = 1 ∧
    (oneLeft.HotPlugUpdate false).vsync_timestamp_ = 30 ∧
    ((oneLeft.HotPlugUpdate false).VSyncUpdates [40]).vsync_calls = [⟨7, 5, 30⟩, ⟨7, 5, 70⟩] := by
  decide

/-- C20 fails on the code: for outputs with refresh rates [60, 30] `SetActiveConfig` leaves
preferred output index 1, the 30 Hz output, although the highest refresh rate is at index 0:
the running maximum `previous_refresh` is never assigned, so every output with a positive
refresh rate replaces the index. -/
theorem SetActiveConfig_prefers_last_positive_refresh :
    (idle refresh6030 (fun _ => layer 0 0) [1, 2]).physical_displays_ = [1, 2] ∧
    (refresh6030 1).refresh = 60 ∧ (refresh6030 2).refresh = 30 ∧
    ((idle refresh6030 (fun _ => layer 0 0) [1, 2]).SetActiveConfig 0).1.preferred_display_index_
      = 1 := by
  decide

end MosaicDisplay

namespace VblankEventHandler

/-! ## Page-flip timestamps -/

/-- The timestamp `HandlePageFlipEvent` computes from `sec` and `usec`. -/
theorem HandlePageFlipEvent_fields (v : VblankEventHandler) (sec usec : Nat) (T : Int)
    (hts : toInt64 (toInt64 (((sec % 2 ^ 32 : Nat) : Int) * kOneSecondNs) +
      toInt64 (((usec % 2 ^ 32 : Nat) : Int) * 1000)) = T) :
    (v.HandlePageFlipEvent sec usec).last_timestamp_ = T ∧
    (∀ cb, v.enabled_ = true → v.callback_ = some cb →
      (v.HandlePageFlipEvent sec usec).vsync_calls = v.vsync_calls ++ [⟨cb, v.display_, T⟩]) ∧
    (v.enabled_ = false ∨ v.callback_ = none →
      (v.HandlePageFlipEvent sec usec).vsync_calls = v.vsync_calls) := by
  unfold HandlePageFlipEvent
  dsimp only
  rw [hts]
  cases hcb : v.callback_ with
  | none =>
    refine ⟨rfl, fun cb _ h => Option.noConfusion h, fun _ => rfl⟩
  | some cb =>
    dsimp only
    cases hen : v.enabled_ with
    | true =>
      refine ⟨rfl, fun cb1 _ h => ?_, fun h => ?_⟩
      · cases h; rfl
      · rcases h with h | h
        · exact Bool.noConfusion h
        · exact Option.noConfusion h
    | false =>
      refine ⟨rfl, fun cb1 h _ => Bool.noConfusion h, fun _ => rfl⟩

/-- For `unsigned int` operands the two products and their sum stay inside `int64_t`, so the
conversions change nothing. -/
theorem pageflip_timestamp_exact (sec usec : Nat) (hs : sec < 2 ^ 32) (hu : usec < 2 ^ 32) :
    toInt64 (toInt64 (((sec % 2 ^ 32 : Nat) : Int) * kOneSecondNs) +
      toInt64 (((usec % 2 ^ 32 : Nat) : Int) * 1000))
      = (sec : Int) * 1000000000 + (usec : Int) * 1000 := by
  have hk : kOneSecondNs = 1000000000 := by decide
  have hsm : sec % 2 ^ 32 = sec := Nat.mod_eq_of_lt hs
  have hum : usec % 2 ^ 32 = usec := Nat.mod_eq_of_lt hu
  rw [hsm, hum, hk]
  unfold toInt64
  omega

/-- C24. Page-flip timestamp conversion: for every pair of unsigned 32-bit values
(sec, usec), `HandlePageFlipEvent` computes timestamp = sec * 1000000000 + usec * 1000
exactly (both products and their sum lie in the signed 64-bit range, so nothing wraps),
stores it as the last timestamp, and forwards (logical id, timestamp) to the registered
callback exactly once if vsync is enabled and a callback is registered, and not at all
otherwise. -/
theorem HandlePageFlipEvent_timestamp (v : VblankEventHandler) (sec usec : Nat)
    (hs : sec < 2 ^ 32) (hu : usec < 2 ^ 32) :
    (v.HandlePageFlipEvent sec usec).last_timestamp_
      = (sec : Int) * 1000000000 + (usec : Int) * 1000 ∧
    (0 ≤ (sec : Int) * kOneSecondNs ∧ (sec : Int) * kOneSecondNs < 2 ^ 63 ∧
      0 ≤ (usec : Int) * 1000 ∧ (usec : Int) * 1000 < 2 ^ 63 ∧
      (sec : Int) * kOneSecondNs + (usec : Int) * 1000 < 2 ^ 63) ∧
    (∀ cb, v.enabled_ = true → v.callback_ = some cb →
      (v.HandlePageFlipEvent sec usec).vsync_calls = v.vsync_calls ++
        [⟨cb, v.display_, (sec : Int) * 1000000000 + (usec : Int) * 1000⟩]) ∧
    (v.enabled_ = false ∨ v.callback_ = none →
      (v.HandlePageFlipEvent sec usec).vsync_calls = v.vsync_calls) := by
  have hk : kOneSecondNs = 1000000000 := by decide
  have hf := HandlePageFlipEvent_fields v sec usec _ (pageflip_timestamp_exact sec usec hs hu)
  refine ⟨hf.1, ?_, hf.2.1, hf.2.2⟩
  rw [hk]
  refine ⟨?_, ?_, ?_, ?_, ?_⟩ <;> omega

/-- The theorem above at the largest operands, sec = usec = 4294967295, on a handler with
callback 7 registered for display 5 and vsync enabled: the timestamp is
4294967295 * 1000000000 + 4294967295 * 1000 and it is delivered once. -/
theorem HandlePageFlipEvent_timestamp_witness :
    (((initial.RegisterCallback (some 7) 5).1.VSyncControl true).1.HandlePageFlipEvent
        4294967295 4294967295).last_timestamp_
      = ((4294967295 : Nat) : Int) * 1000000000 + ((4294967295 : Nat) : Int) * 1000 ∧
    (((initial.RegisterCallback (some 7) 5).1.VSyncControl true).1.HandlePageFlipEvent
        4294967295 4294967295).vsync_calls
      = [⟨7, 5, ((4294967295 : Nat) : Int) * 1000000000 + ((4294967295 : Nat) : Int) * 1000⟩] :=
  ⟨(HandlePageFlipEvent_timestamp ((initial.RegisterCallback (some 7) 5).1.VSyncControl true).1
      4294967295 4294967295 (by decide) (by decide)).1,
    (HandlePageFlipEvent_timestamp ((initial.RegisterCallback (some 7) 5).1.VSyncControl true).1
      4294967295 4294967295 (by decide) (by decide)).2.2.1 7 rfl rfl⟩

end VblankEventHandler

namespace MosaicDisplay

/-! ## Composite refresh rate and dpi -/

/-- Refresh rate and dpi accumulated, and the outputs counted, by the second loop of
`SetActiveConfig`. -/
theorem SetActiveConfig_loop_sums (ps : List Ptr) : ∀ (i avg : Nat) (s : MosaicDisplay),
    s.dpix_ < 2 ^ 32 → s.dpiy_ < 2 ^ 32 → s.refresh_ < 2 ^ 32 → avg < 2 ^ 32 →
    (SetActiveConfig.loop ps i avg s).1.dpix_ =
      (s.dpix_ + (ps.map (fun p => toUInt32 (toInt32 (s.displays p).dpix))).sum) % 2 ^ 32 ∧
    (SetActiveConfig.loop ps i avg s).1.dpiy_ =
      (s.dpiy_ + (ps.map (fun p => toUInt32 (toInt32 (s.displays p).dpiy))).sum) % 2 ^ 32 ∧
    (SetActiveConfig.loop ps i avg s).1.refresh_ =
      (s.refresh_ + (ps.map (fun p => toUInt32 (toInt32 (s.displays p).refresh))).sum) % 2 ^ 32 ∧
    (SetActiveConfig.loop ps i avg s).2 = (avg + ps.length) % 2 ^ 32 := by
  induction ps with
  | nil =>
    intro i avg s hx hy hr ha
    unfold SetActiveConfig.loop
    simp only [List.map_nil, List.sum_nil, List.length_nil]
    refine ⟨?_, ?_, ?_, ?_⟩ <;> omega
  | cons p ps ih =>
    intro i avg s hx hy hr ha
    unfold SetActiveConfig.loop
    dsimp only
    obtain ⟨h1, h2, h3, h4⟩ := ih ((i + 1) % 2 ^ 32) ((avg + 1) % 2 ^ 32)
      { s with
        height_ := max s.height_ (s.displays p).height
        width_ := (s.width_ + (s.displays p).width) % 2 ^ 32
        dpix_ := (s.dpix_ + toUInt32 (toInt32 (s.displays p).dpix)) % 2 ^ 32
        dpiy_ := (s.dpiy_ + toUInt32 (toInt32 (s.displays p).dpiy)) % 2 ^ 32
        refresh_ := (s.refresh_ + toUInt32 (toInt32 (s.displays p).refresh)) % 2 ^ 32
        preferred_display_index_ :=
          if (0 : Int) < toInt32 (s.displays p).refresh then i else s.preferred_display_index_ }
      (Nat.mod_lt _ (by norm_num)) (Nat.mod_lt _ (by norm_num)) (Nat.mod_lt _ (by norm_num))
      (Nat.mod_lt _ (by norm_num))
    refine ⟨h1.trans ?_, h2.trans ?_, h3.trans ?_, h4.trans ?_⟩
    · simp only [List.map_cons, List.sum_cons]
      omega
    · simp only [List.map_cons, List.sum_cons]
      omega
    · simp only [List.map_cons, List.sum_cons]
      omega
    · simp only [List.length_cons]
      omega

/-- The refresh rate and dpi `SetActiveConfig` leaves, in terms of its second loop. -/
theorem SetActiveConfig_means_of_loop (s : MosaicDisplay) (config : Nat) :
    let r := SetActiveConfig.loop s.iterated 0 0
      { s with
        config_ := config, width_ := 0, height_ := 0
        displays := fanOut (fun d => { d with active_config := config }) s.iterated s.displays }
    (0 < r.2 →
      (s.SetActiveConfig config).1.refresh_ = r.1.refresh_ / r.2 ∧
      (s.SetActiveConfig config).1.dpix_ = r.1.dpix_ / r.2 ∧
      (s.SetActiveConfig config).1.dpiy_ = r.1.dpiy_ / r.2) ∧
    (r.2 = 0 →
      (s.SetActiveConfig config).1.refresh_ = r.1.refresh_ ∧
      (s.SetActiveConfig config).1.dpix_ = r.1.dpix_ ∧
      (s.SetActiveConfig config).1.dpiy_ = r.1.dpiy_) := by
  intro r
  have key : s.SetActiveConfig config =
      if r.2 > 0 then
        ({ r.1 with
            refresh_ := r.1.refresh_ / r.2
            dpix_ := r.1.dpix_ / r.2
            dpiy_ := r.1.dpiy_ / r.2 }, true)
      else (r.1, true) := rfl
  refine ⟨fun h => ?_, fun h => ?_⟩
  · rw [key, if_pos h]
    exact ⟨rfl, rfl, rfl⟩
  · have h0 : ¬ (r.2 > 0) := by omega
    rw [key, if_neg h0]
    exact ⟨rfl, rfl, rfl⟩

/-- A non-negative `int32_t` attribute enters the unsigned sum with its own value. -/
theorem toUInt32_toInt32_of_nonneg (x : Int) (h0 : 0 ≤ x) (h1 : x < 2 ^ 31) :
    toUInt32 (toInt32 x) = x.toNat := by
  unfold toUInt32 toInt32
  omega

/-- The sum of non-negative attributes, formed over the naturals, is their integer sum. -/
theorem attribute_sum_cast (g : NativeDisplay → Int) (displays : Ptr → NativeDisplay) :
    ∀ ps : List Ptr, (∀ p ∈ ps, 0 ≤ g (displays p) ∧ g (displays p) < 2 ^ 31) →
    (((ps.map (fun p => toUInt32 (toInt32 (g (displays p))))).sum : Nat) : Int)
      = (ps.map (fun p => g (displays p))).sum := by
  intro ps
  induction ps with
  | nil => intro _; rfl
  | cons p ps ih =>
    intro h
    have hp := h p (List.mem_cons_self _ _)
    have ih1 := ih (fun q hq => h q (List.mem_cons_of_mem _ hq))
    simp only [List.map_cons, List.sum_cons, Nat.cast_add]
    rw [ih1, toUInt32_toInt32_of_nonneg _ hp.1 hp.2, Int.toNat_of_nonneg hp.1]

/-- C21. Composite refresh and dpi are means: on a controller whose refresh, dpiX and dpiY
accumulators are zero and whose owned outputs (connected or not) report non-negative
attributes, `SetActiveConfig` with n >= 1 owned outputs sets refresh, dpiX and dpiY to the
integer quotient by n of the sum of the respective attribute over all n owned outputs, the
sum being formed in 32 bits (it is the exact sum whenever that is below 2^32); with n = 0
they stay 0. -/
theorem SetActiveConfig_means (s : MosaicDisplay) (config : Nat)
    (hlen : s.physical_displays_.length < 2 ^ 32)
    (hr : s.refresh_ = 0) (hx : s.dpix_ = 0) (hy : s.dpiy_ = 0)
    (hattr : ∀ p ∈ s.physical_displays_,
      (0 ≤ (s.displays p).refresh ∧ (s.displays p).refresh < 2 ^ 31) ∧
      (0 ≤ (s.displays p).dpix ∧ (s.displays p).dpix < 2 ^ 31) ∧
      (0 ≤ (s.displays p).dpiy ∧ (s.displays p).dpiy < 2 ^ 31)) :
    (1 ≤ s.physical_displays_.length →
      ((s.SetActiveConfig config).1.refresh_ : Int) =
        (s.physical_displays_.map (fun p => (s.displays p).refresh)).sum % 2 ^ 32
          / (s.physical_displays_.length : Int) ∧
      ((s.SetActiveConfig config).1.dpix_ : Int) =
        (s.physical_displays_.map (fun p => (s.displays p).dpix)).sum % 2 ^ 32
          / (s.physical_displays_.length : Int) ∧
      ((s.SetActiveConfig config).1.dpiy_ : Int) =
        (s.physical_displays_.map (fun p => (s.displays p).dpiy)).sum % 2 ^ 32
          / (s.physical_displays_.length : Int)) ∧
    (1 ≤ s.physical_displays_.length →
      ((s.physical_displays_.map (fun p => (s.displays p).refresh)).sum < 2 ^ 32 →
        ((s.SetActiveConfig config).1.refresh_ : Int) =
          (s.physical_displays_.map (fun p => (s.displays p).refresh)).sum
            / (s.physical_displays_.length : Int)) ∧
      ((s.physical_displays_.map (fun p => (s.displays p).dpix)).sum < 2 ^ 32 →
        ((s.SetActiveConfig config).1.dpix_ : Int) =
          (s.physical_displays_.map (fun p => (s.displays p).dpix)).sum
            / (s.physical_displays_.length : Int)) ∧
      ((s.physical_displays_.map (fun p => (s.displays p).dpiy)).sum < 2 ^ 32 →
        ((s.SetActiveConfig config).1.dpiy_ : Int) =
          (s.physical_displays_.map (fun p => (s.displays p).dpiy)).sum
            / (s.physical_displays_.length : Int))) ∧
    (s.physical_displays_.length = 0 →
      (s.SetActiveConfig config).1.refresh_ = 0 ∧
      (s.SetActiveConfig config).1.dpix_ = 0 ∧
      (s.SetActiveConfig config).1.dpiy_ = 0) := by
  obtain ⟨m1, m2⟩ := SetActiveConfig_means_of_loop s config
  obtain ⟨lx, ly, lr, la⟩ := SetActiveConfig_loop_sums s.iterated 0 0
    { s with
      config_ := config, width_ := 0, height_ := 0
      displays := fanOut (fun d => { d with active_config := config }) s.iterated s.displays }
    (by dsimp only; omega) (by dsimp only; omega) (by dsimp only; omega) (by norm_num)
  have kx : ∀ p, (fanOut (fun d => { d with active_config := config }) s.iterated s.displays p).dpix
      = (s.displays p).dpix :=
    fanOut_keeps NativeDisplay.dpix (fun d => { d with active_config := config }) (fun _ => rfl) _ _
  have ky : ∀ p, (fanOut (fun d => { d with active_config := config }) s.iterated s.displays p).dpiy
      = (s.displays p).dpiy :=
    fanOut_keeps NativeDisplay.dpiy (fun d => { d with active_config := config }) (fun _ => rfl) _ _
  have kr : ∀ p, (fanOut (fun d => { d with active_config := config }) s.iterated s.displays p).refresh
      = (s.displays p).refresh :=
    fanOut_keeps NativeDisplay.refresh (fun d => { d with active_config := config }) (fun _ => rfl) _ _
  dsimp only at lx ly lr la m1 m2
  simp only [kx, ky, kr, hx, hy, hr, zero_add] at lx ly lr la
  simp only [hx, hy, hr] at m1 m2
  rw [iterated_eq s hlen] at lx ly lr la m1 m2
  rw [Nat.mod_eq_of_lt hlen] at la
  have cx := attribute_sum_cast NativeDisplay.dpix s.displays s.physical_displays_
    (fun p hp => (hattr p hp).2.1)
  have cy := attribute_sum_cast NativeDisplay.dpiy s.displays s.physical_displays_
    (fun p hp => (hattr p hp).2.2)
  have cr := attribute_sum_cast NativeDisplay.refresh s.displays s.physical_displays_
    (fun p hp => (hattr p hp).1)
  have means : 1 ≤ s.physical_displays_.length →
      ((s.SetActiveConfig config).1.refresh_ : Int) =
        (s.physical_displays_.map (fun p => (s.displays p).refresh)).sum % 2 ^ 32
          / (s.physical_displays_.length : Int) ∧
      ((s.SetActiveConfig config).1.dpix_ : Int) =
        (s.physical_displays_.map (fun p => (s.displays p).dpix)).sum % 2 ^ 32
          / (s.physical_displays_.length : Int) ∧
      ((s.SetActiveConfig config).1.dpiy_ : Int) =
        (s.physical_displays_.map (fun p => (s.displays p).dpiy)).sum % 2 ^ 32
          / (s.physical_displays_.length : Int) := by
    intro hn
    obtain ⟨e1, e2, e3⟩ := m1 (by rw [la]; omega)
    rw [e1, e2, e3, lx, ly, lr, la, ← cx, ← cy, ← cr]
    push_cast
    exact ⟨rfl, rfl, rfl⟩
  refine ⟨means, fun hn => ?_, fun hn => ?_⟩
  · obtain ⟨e1, e2, e3⟩ := means hn
    have nr : (0 : Int) ≤ (s.physical_displays_.map (fun p => (s.displays p).refresh)).sum := by
      rw [← cr]; exact Int.natCast_nonneg _
    have nx : (0 : Int) ≤ (s.physical_displays_.map (fun p => (s.displays p).dpix)).sum := by
      rw [← cx]; exact Int.natCast_nonneg _
    have ny : (0 : Int) ≤ (s.physical_displays_.map (fun p => (s.displays p).dpiy)).sum := by
      rw [← cy]; exact Int.natCast_nonneg _
    refine ⟨fun h => ?_, fun h => ?_, fun h => ?_⟩
    · rw [e1, Int.emod_eq_of_lt nr h]
    · rw [e2, Int.emod_eq_of_lt nx h]
    · rw [e3, Int.emod_eq_of_lt ny h]
  · have hz : (SetActiveConfig.loop s.physical_displays_ 0 0
      { s with
        config_ := config, width_ := 0, height_ := 0, dpix_ := 0, dpiy_ := 0, refresh_ := 0
        displays := fanOut (fun d => { d with active_config := config })
          s.physical_displays_ s.displays }).2 = 0 := by rw [la]; exact hn
    obtain ⟨e1, e2, e3⟩ := m2 hz
    have hnil : s.physical_displays_ = [] := List.length_eq_zero.1 hn
    rw [e1, e2, e3, lx, ly, lr, hnil]
    exact ⟨rfl, rfl, rfl⟩

/-- The theorem above at outputs 1 (connected, 60 Hz, 96 x 96 dpi) and 2 (disconnected,
30 Hz, 72 x 48 dpi): refresh 45, dpiX 84, dpiY 72. -/
theorem SetActiveConfig_means_witness :
    (((idle mixedOutputsHeap (fun _ => layer 0 0) [1, 2]).SetActiveConfig 0).1.refresh_ : Int) = 45 ∧
    (((idle mixedOutputsHeap (fun _ => layer 0 0) [1, 2]).SetActiveConfig 0).1.dpix_ : Int) = 84 ∧
    (((idle mixedOutputsHeap (fun _ => layer 0 0) [1, 2]).SetActiveConfig 0).1.dpiy_ : Int) = 72 := by
  have h := (SetActiveConfig_means (idle mixedOutputsHeap (fun _ => layer 0 0) [1, 2]) 0
    (by decide) rfl rfl rfl (by decide)).2.1 (by decide)
  exact ⟨h.1 (by decide), h.2.1 (by decide), h.2.2 (by decide)⟩

end MosaicDisplay

namespace MosaicDisplayPresenter

/-! ## Constraints written to the retained layers -/

/-- The layer heap after the loop of `HandleRoutine`: a layer the loop retains carries the
five values the setters of lines 569-573 store, every other layer is as it was. -/
theorem HandleRoutine_loop_heap (L rc : Int) (dl dr : Nat) (td : Int) (heap0 : Ptr → HwcLayer)
    (src : List Ptr) : ∀ (layers_ : List Ptr) (heap : Ptr → HwcLayer),
    (∀ p, (heap p).display_frame_ = (heap0 p).display_frame_) →
    ∀ p, (HandleRoutine.loop L rc dl dr td src layers_ heap).2 p =
      if p ∈ src.filter (fun q => !excluded (heap0 q).display_frame_ L rc) then
        ⟨(heap p).display_frame_, toInt32 dl, toInt32 dr, L, rc, toUInt32 td⟩
      else heap p := by
  induction src with
  | nil =>
    intro layers_ heap _ p
    simp [HandleRoutine.loop]
  | cons q src ih =>
    intro layers_ heap h p
    unfold HandleRoutine.loop
    dsimp only
    by_cases hq : excluded (heap q).display_frame_ L rc = true
    · rw [if_pos hq, ih layers_ heap h p]
      rw [h q] at hq
      simp [List.filter_cons, hq]
    · rw [if_neg hq]
      rw [ih (layers_ ++ [q]) (Function.update heap q
        { heap q with
          left_constraint_ := toInt32 dl
          right_constraint_ := toInt32 dr
          left_source_constraint_ := L
          right_source_constraint_ := rc
          total_displays_ := toUInt32 td }) (by
          intro p
          by_cases hpq : p = q
          · subst hpq; rw [Function.update_same]; exact h p
          · rw [Function.update_noteq hpq]; exact h p) p]
      rw [h q] at hq
      have hq1 : excluded (heap0 q).display_frame_ L rc = false := by
        cases hx : excluded (heap0 q).display_frame_ L rc with
        | true => exact absurd hx hq
        | false => rfl
      by_cases hpq : p = q
      · subst hpq
        rw [Function.update_same]
        simp [List.filter_cons, hq1]
      · rw [Function.update_noteq hpq]
        simp [List.filter_cons, hq1, hpq]

/-- The layer heap after `HandleRoutine`, on either return path. -/
theorem HandleRoutine_heap (m : MosaicDisplayPresenter) (nd : NativeDisplay)
    (heap : Ptr → HwcLayer) (out_fence : Int) (p : Ptr) :
    (m.HandleRoutine nd heap out_fence).2 p =
      if p ∈ (m.HandleRoutine nd heap out_fence).1.layers_ then
        ⟨(heap p).display_frame_, toInt32 (((nd.logical_index * nd.width) % 2 ^ 32 : Nat) : Int),
          toInt32 ((((nd.logical_index * nd.width) % 2 ^ 32 + nd.width) % 2 ^ 32 : Nat) : Int),
          m.left_constraint_, right_constraint m.left_constraint_ nd.width,
          toUInt32 (toInt32 (m.total_displays_ - m.id_))⟩
      else heap p := by
  rw [HandleRoutine_layers]
  have h1 := HandleRoutine_loop_heap m.left_constraint_
    (right_constraint m.left_constraint_ nd.width) ((nd.logical_index * nd.width) % 2 ^ 32)
    (((nd.logical_index * nd.width) % 2 ^ 32 + nd.width) % 2 ^ 32)
    (toInt32 (m.total_displays_ - m.id_)) heap m.source_layers_ [] heap (fun _ => rfl) p
  unfold HandleRoutine
  dsimp only [ClearLayers]
  split_ifs <;> simp_all

/-- C22. Tile constraints written to layers: after the tile worker's assignment routine with
left constraint L, output width W, output logical index g, total count T and ordinal d, every
retained layer has left device constraint g*W, right device constraint g*W + W (both formed
in 32 bits), left source constraint L, right source constraint the worker's
`right_constraint` for L + W and remaining-displays count T - d as an unsigned 32-bit value,
and its display frame as before; every layer that was not retained is unmodified. Whenever
g*W + W and L + W fit in `int32_t` and 0 <= T - d < 2^31, the values are g*W, g*W + W, L,
L + W and T - d themselves. -/
theorem Present_writes_tile_constraints (m : MosaicDisplayPresenter) (display : Ptr)
    (nd : NativeDisplay) (L T d : Int) (source_layers : List Ptr)
    (call_back : Option Ptr) (heap : Ptr → HwcLayer) (out_fence : Int) :
    (∀ p ∈ (m.Present display nd L T d source_layers call_back heap out_fence).1.layers_,
      ((m.Present display nd L T d source_layers call_back heap out_fence).2 p).left_constraint_
        = toInt32 (((nd.logical_index * nd.width) % 2 ^ 32 : Nat) : Int) ∧
      ((m.Present display nd L T d source_layers call_back heap out_fence).2 p).right_constraint_
        = toInt32 ((((nd.logical_index * nd.width) % 2 ^ 32 + nd.width) % 2 ^ 32 : Nat) : Int) ∧
      ((m.Present display nd L T d source_layers call_back heap out_fence).2 p).left_source_constraint_
        = L ∧
      ((m.Present display nd L T d source_layers call_back heap out_fence).2 p).right_source_constraint_
        = right_constraint L nd.width ∧
      ((m.Present display nd L T d source_layers call_back heap out_fence).2 p).total_displays_
        = toUInt32 (toInt32 (T - d)) ∧
      ((m.Present display nd L T d source_layers call_back heap out_fence).2 p).display_frame_
        = (heap p).display_frame_) ∧
    (∀ p, p ∉ (m.Present display nd L T d source_layers call_back heap out_fence).1.layers_ →
      (m.Present display nd L T d source_layers call_back heap out_fence).2 p = heap p) ∧
    (nd.logical_index * nd.width + nd.width < 2 ^ 31 →
      -2 ^ 31 ≤ L + nd.width → L + nd.width < 2 ^ 31 → 0 ≤ T - d → T - d < 2 ^ 31 →
      ∀ p ∈ (m.Present display nd L T d source_layers call_back heap out_fence).1.layers_,
        ((m.Present display nd L T d source_layers call_back heap out_fence).2 p).left_constraint_
          = ((nd.logical_index * nd.width : Nat) : Int) ∧
        ((m.Present display nd L T d source_layers call_back heap out_fence).2 p).right_constraint_
          = ((nd.logical_index * nd.width + nd.width : Nat) : Int) ∧
        ((m.Present display nd L T d source_layers call_back heap out_fence).2 p).left_source_constraint_
          = L ∧
        ((m.Present display nd L T d source_layers call_back heap out_fence).2 p).right_source_constraint_
          = L + nd.width ∧
        (((m.Present display nd L T d source_layers call_back heap out_fence).2 p).total_displays_ : Int)
          = T - d) := by
  have key : ∀ p, (m.Present display nd L T d source_layers call_back heap out_fence).2 p =
      if p ∈ (m.Present display nd L T d source_layers call_back heap out_fence).1.layers_ then
        ⟨(heap p).display_frame_, toInt32 (((nd.logical_index * nd.width) % 2 ^ 32 : Nat) : Int),
          toInt32 ((((nd.logical_index * nd.width) % 2 ^ 32 + nd.width) % 2 ^ 32 : Nat) : Int),
          L, right_constraint L nd.width, toUInt32 (toInt32 (T - d))⟩
      else heap p := fun p =>
    HandleRoutine_heap
      { m with
        native_display_ := display
        left_constraint_ := L
        total_displays_ := T
        id_ := d
        source_layers_ := source_layers
        callback_ := call_back } nd heap out_fence p
  have fields : ∀ p ∈ (m.Present display nd L T d source_layers call_back heap out_fence).1.layers_,
      (m.Present display nd L T d source_layers call_back heap out_fence).2 p =
        ⟨(heap p).display_frame_, toInt32 (((nd.logical_index * nd.width) % 2 ^ 32 : Nat) : Int),
          toInt32 ((((nd.logical_index * nd.width) % 2 ^ 32 + nd.width) % 2 ^ 32 : Nat) : Int),
          L, right_constraint L nd.width, toUInt32 (toInt32 (T - d))⟩ := by
    intro p hp
    rw [key p, if_pos hp]
  refine ⟨fun p hp => ?_, fun p hp => ?_, fun hg h1 h2 h3 h4 p hp => ?_⟩
  · rw [fields p hp]
    exact ⟨rfl, rfl, rfl, rfl, rfl, rfl⟩
  · rw [key p, if_neg hp]
  · rw [fields p hp]
    dsimp only
    have e1 : (nd.logical_index * nd.width) % 2 ^ 32 = nd.logical_index * nd.width :=
      Nat.mod_eq_of_lt (by omega)
    have e2 : (nd.logical_index * nd.width + nd.width) % 2 ^ 32
        = nd.logical_index * nd.width + nd.width := Nat.mod_eq_of_lt (by omega)
    rw [e1, e2, MosaicDisplay.toInt32_of_small _ (by omega), MosaicDisplay.toInt32_of_small _ hg,
      right_constraint_exact L nd.width h1 h2,
      MosaicDisplay.toUInt32_toInt32_of_nonneg _ h3 h4, Int.toNat_of_nonneg h3]
    exact ⟨rfl, rfl, rfl, rfl, rfl⟩

/-- The theorem above for the second tile of two (L = 100, W = 100, g = 1, T = 2, d = 1)
and the layers 10 spanning `[150, 180]` and 11 spanning `[250, 300]`: layer 10 is retained
and carries 100, 200, 100, 200 and 1; layer 11 is not retained and is as it was. -/
theorem Present_writes_tile_constraints_witness :
    (fresh.Present 1 { MosaicDisplay.output true 100 100 60 with logical_index := 1 } 100 2 1
      [10, 11] none
      (fun p => if p = 10 then MosaicDisplay.layer 150 180 else MosaicDisplay.layer 250 300) 5).2 10
      = { MosaicDisplay.layer 150 180 with
          left_constraint_ := 100, right_constraint_ := 200, left_source_constraint_ := 100,
          right_source_constraint_ := 200, total_displays_ := 1 } ∧
    (fresh.Present 1 { MosaicDisplay.output true 100 100 60 with logical_index := 1 } 100 2 1
      [10, 11] none
      (fun p => if p = 10 then MosaicDisplay.layer 150 180 else MosaicDisplay.layer 250 300) 5).2 11
      = MosaicDisplay.layer 250 300 ∧
    ((fresh.Present 1 { MosaicDisplay.output true 100 100 60 with logical_index := 1 } 100 2 1
      [10, 11] none
      (fun p => if p = 10 then MosaicDisplay.layer 150 180 else MosaicDisplay.layer 250 300) 5).2
        10).left_constraint_ = ((1 * 100 : Nat) : Int) :=
  ⟨by decide,
    (Present_writes_tile_constraints fresh 1
      { MosaicDisplay.output true 100 100 60 with logical_index := 1 } 100 2 1 [10, 11] none
      (fun p => if p = 10 then MosaicDisplay.layer 150 180 else MosaicDisplay.layer 250 300)
      5).2.1 11 (by decide),
    ((Present_writes_tile_constraints fresh 1
      { MosaicDisplay.output true 100 100 60 with logical_index := 1 } 100 2 1 [10, 11] none
      (fun p => if p = 10 then MosaicDisplay.layer 150 180 else MosaicDisplay.layer 250 300)
      5).2.2 (by decide) (by decide) (by decide) (by decide) (by decide) 10 (by decide)).1⟩

/-! ## Completion signal -/

/-- The completion signal on the two return paths of the tile worker's `Present`: raised
once when a layer is retained, not raised when none is. -/
theorem presentFrame_signal (m : MosaicDisplayPresenter) (f : TileFrame) :
    (f.submits = false → (m.presentFrame f).cevent_ = m.cevent_) ∧
    (f.submits = true → (m.presentFrame f).cevent_ = m.cevent_ + 1) := by
  have hl := presentFrame_layers_ne_nil m f
  have hf := HandleRoutine_fence
    { m with
      native_display_ := f.display
      left_constraint_ := f.left_constraint
      total_displays_ := f.total_displays
      id_ := f.display_id
      source_layers_ := f.source_layers
      callback_ := f.call_back } f.nd f.heap f.out_fence
  have hdef : m.presentFrame f = (HandleRoutine
    { m with
      native_display_ := f.display
      left_constraint_ := f.left_constraint
      total_displays_ := f.total_displays
      id_ := f.display_id
      source_layers_ := f.source_layers
      callback_ := f.call_back } f.nd f.heap f.out_fence).1 := rfl
  rw [← hdef] at hf
  refine ⟨fun hs => ?_, fun hs => ?_⟩
  · have hnil : (m.presentFrame f).layers_ = [] := by
      by_contra hne
      rw [hl.1 hne] at hs
      exact Bool.noConfusion hs
    exact (hf.1 hnil).2.2
  · exact (hf.2 (hl.2 hs)).2.2

/-- C23 fails on the code: a new worker of a 100-wide output at left constraint 0 is
presented the single layer `[200, 300]`, which lies outside its window `[0, 100]`. No layer
is retained, `HandleRoutine` returns at line 580 and the completion signal is not raised
(0 signals pending), so a `Wait` on the worker does not return; with the layer `[10, 20]` the
signal is raised once. In the controller, `Present` on two tiles whose layers all lie outside
the first window never returns, while with layers inside it does. -/
theorem Present_without_retained_layer_raises_no_signal :
    (frame 200 300 6).submits = false ∧
    (fresh.presentFrame (frame 200 300 6)).cevent_ = 0 ∧
    (fresh.presentFrame (frame 200 300 6)).Wait.isNone = true ∧
    (frame 10 20 6).submits = true ∧
    (fresh.presentFrame (frame 10 20 6)).cevent_ = 1 ∧
    (fresh.presentFrame (frame 10 20 6)).Wait.isSome = true ∧
    (MosaicDisplay.offscreenTiles.Present [10] none (fun _ => 5)).isNone = true ∧
    (MosaicDisplay.twoTiles.Present [10] none (fun _ => 5)).isSome = true := by
  refine ⟨by decide, by decide, by decide, by decide, by decide, by decide, by decide, by decide⟩

end MosaicDisplayPresenter

namespace MosaicDisplay

/-! ## Alternation of hotplug notifications -/

/-- The notification part of `HotPlugUpdate` is a hotplug step. -/
theorem notify_step (s : MosaicDisplay) (c : Bool) (n : Nat) :
    HotplugStep s (HotPlugUpdate.notify s c n) := by
  unfold HotplugStep HotPlugUpdate.notify
  by_cases h : s.connected_ = c
  · rw [if_pos h]
    exact ⟨rfl, rfl, Or.inl ⟨rfl, rfl⟩⟩
  · rw [if_neg h]
    cases hcb : s.hotplug_callback_ with
    | none => exact ⟨hcb, rfl, Or.inl ⟨rfl, rfl⟩⟩
    | some cb =>
      dsimp only
      by_cases h2 : c = false ∧ s.connected_ = true ∧ n ≠ 0
      · rw [if_pos h2]
        exact ⟨hcb, rfl, Or.inl ⟨rfl, rfl⟩⟩
      · rw [if_neg h2]
        exact ⟨rfl, rfl, Or.inr ⟨cb, rfl, h, rfl⟩⟩


/-- `HotPlugUpdate` is a hotplug step. -/
theorem HotPlugUpdate_step (s : MosaicDisplay) (connected : Bool) :
    HotplugStep s (s.HotPlugUpdate connected) := by
  obtain ⟨-, -, -, f4, f5, f6, f7, -⟩ := flush_frame { s with update_connected_displays_ := true }
    (HotPlugUpdate.count s.displays s.iterated)
  have h := notify_step
    { HotPlugUpdate.flush { s with update_connected_displays_ := true }
        (HotPlugUpdate.count s.displays s.iterated) with
      vsync_counter_ := HotPlugUpdate.count s.displays s.iterated
      vsync_divisor_ := HotPlugUpdate.count s.displays s.iterated }
    connected (HotPlugUpdate.count s.displays s.iterated)
  have hdef : HotPlugUpdate.notify
      { HotPlugUpdate.flush { s with update_connected_displays_ := true }
          (HotPlugUpdate.count s.displays s.iterated) with
        vsync_counter_ := HotPlugUpdate.count s.displays s.iterated
        vsync_divisor_ := HotPlugUpdate.count s.displays s.iterated }
      connected (HotPlugUpdate.count s.displays s.iterated) = s.HotPlugUpdate connected := rfl
  rw [hdef] at h
  unfold HotplugStep at h
  dsimp only at h
  rw [f4, f5, f6, f7] at h
  exact h

/-- `VSyncUpdate` touches neither the cached connection state nor the hotplug trace. -/
theorem VSyncUpdate_step (s : MosaicDisplay) (t : Int) : HotplugStep s (s.VSyncUpdate t) := by
  unfold HotplugStep VSyncUpdate
  cases s.vsync_callback_ with
  | none => exact ⟨rfl, rfl, Or.inl ⟨rfl, rfl⟩⟩
  | some cb =>
    dsimp only
    split_ifs <;> exact ⟨rfl, rfl, Or.inl ⟨rfl, rfl⟩⟩

/-- `VSyncControl` touches neither the cached connection state nor the hotplug trace. -/
theorem VSyncControl_step (s : MosaicDisplay) (e : Bool) : HotplugStep s (s.VSyncControl e) := by
  unfold HotplugStep VSyncControl
  split_ifs <;> exact ⟨rfl, rfl, Or.inl ⟨rfl, rfl⟩⟩

/-- Every call is a hotplug step. -/
theorem step_HotplugStep (s : MosaicDisplay) (c : Call) : HotplugStep s (s.step c) := by
  cases c with
  | HotPlugUpdate connected => exact HotPlugUpdate_step s connected
  | VSyncUpdate t => exact VSyncUpdate_step s t
  | VSyncControl e => exact VSyncControl_step s e
  | outputs d => exact ⟨rfl, rfl, Or.inl ⟨rfl, rfl⟩⟩

/-- C25. Hotplug notifications alternate: over every sequence of calls (`HotPlugUpdate`
interleaved with vsync calls and changes of the outputs) during which the registered hotplug
callback stays as it is, the notifications delivered are appended to the trace, each goes to
the registered callback with the logical id, the sequence formed by the initial cached state
followed by the states the notifications carry has no two equal neighbours, and the cached
aggregate connection state equals the state carried by the most recent notification (its
initial value if none was delivered). -/
theorem hotplug_notifications_alternate (cs : List Call) : ∀ s : MosaicDisplay,
    ∃ news : List HotPlugCall,
      (s.run cs).hotplug_calls = s.hotplug_calls ++ news ∧
      (∀ c ∈ news, s.hotplug_callback_ = some c.callback ∧ c.display = s.display_id_) ∧
      List.Chain' (fun a b => a ≠ b) (s.connected_ :: news.map HotPlugCall.connected) ∧
      (s.run cs).connected_ = (news.map HotPlugCall.connected).getLastD s.connected_ ∧
      (s.run cs).hotplug_callback_ = s.hotplug_callback_ ∧
      (s.run cs).display_id_ = s.display_id_ := by
  induction cs with
  | nil =>
    intro s
    exact ⟨[], (List.append_nil _).symm, fun c hc => absurd hc (List.not_mem_nil c),
      List.chain'_singleton _, rfl, rfl, rfl⟩
  | cons c cs ih =>
    intro s
    obtain ⟨hcb, hid, hcase⟩ := step_HotplugStep s c
    obtain ⟨news, e1, e2, e3, e4, e5, e6⟩ := ih (s.step c)
    have hrun : s.run (c :: cs) = (s.step c).run cs := rfl
    rw [hrun]
    rcases hcase with ⟨hc, hh⟩ | ⟨cb, hs, hne, hh⟩
    · refine ⟨news, ?_, ?_, ?_, ?_, e5.trans hcb, e6.trans hid⟩
      · rw [e1, hh]
      · intro x hx
        rw [← hcb, ← hid]
        exact e2 x hx
      · rw [← hc]; exact e3
      · rw [e4, hc]
    · refine ⟨⟨cb, s.display_id_, (s.step c).connected_⟩ :: news, ?_, ?_, ?_, ?_,
        e5.trans hcb, e6.trans hid⟩
      · rw [e1, hh, List.append_assoc, List.singleton_append]
      · intro x hx
        rcases List.mem_cons.1 hx with hx | hx
        · rw [hx]; exact ⟨hs, rfl⟩
        · rw [← hcb, ← hid]
          exact e2 x hx
      · rw [List.map_cons]
        exact List.chain'_cons.2 ⟨hne, e3⟩
      · rw [e4, List.map_cons, List.getLastD_cons]

/-- The theorem above on the run that reports a connection twice, then drops both outputs
and reports the disconnection: two notifications, connected and then disconnected, both to
callback 8 for logical display 5. -/
theorem hotplug_notifications_alternate_witness :
    (armed.run [.HotPlugUpdate true, .HotPlugUpdate true,
      .outputs (fun _ => output false 1920 1080 60), .HotPlugUpdate false]).hotplug_calls
      = [⟨8, 5, true⟩, ⟨8, 5, false⟩] ∧
    ∃ news : List HotPlugCall,
      (armed.run [.HotPlugUpdate true, .HotPlugUpdate true,
        .outputs (fun _ => output false 1920 1080 60), .HotPlugUpdate false]).hotplug_calls
        = armed.hotplug_calls ++ news ∧
      (∀ c ∈ news, armed.hotplug_callback_ = some c.callback ∧ c.display = armed.display_id_) ∧
      List.Chain' (fun a b => a ≠ b) (armed.connected_ :: news.map HotPlugCall.connected) ∧
      (armed.run [.HotPlugUpdate true, .HotPlugUpdate true,
        .outputs (fun _ => output false 1920 1080 60), .HotPlugUpdate false]).connected_
        = (news.map HotPlugCall.connected).getLastD armed.connected_ ∧
      (armed.run [.HotPlugUpdate true, .HotPlugUpdate true,
        .outputs (fun _ => output false 1920 1080 60), .HotPlugUpdate false]).hotplug_callback_
        = armed.hotplug_callback_ ∧
      (armed.run [.HotPlugUpdate true, .HotPlugUpdate true,
        .outputs (fun _ => output false 1920 1080 60), .HotPlugUpdate false]).display_id_
        = armed.display_id_ :=
  ⟨by decide, hotplug_notifications_alternate _ armed⟩

end MosaicDisplay

end hwcomposer

/-! ## Gamma forwarding (`os/linux/linux_frontend.cpp`) -/

namespace IAHWC

/-- C26 fails on the code: `SetDisplayGamma(x, y, z)` calls `SetGamma` exactly once and
returns `IAHWC_ERROR_NONE`, but with the arguments (x, z, y): its parameters are declared in
the order (r, b, g) and passed on as (r, g, b), so the second and third argument are
exchanged. For (1, 2, 3) the call is `SetGamma(1, 3, 2)`. -/
theorem SetDisplayGamma_exchanges_second_and_third :
    (∀ (F : Type) (d : IAHWCDisplay F) (x y z : F),
      (d.SetDisplayGamma x y z).1.gamma_calls = d.gamma_calls ++ [⟨x, z, y⟩] ∧
      (d.SetDisplayGamma x y z).2 = IAHWC_ERROR_NONE) ∧
    ((⟨1, []⟩ : IAHWCDisplay Int).SetDisplayGamma 1 2 3).1.gamma_calls = [⟨1, 3, 2⟩] ∧
    (⟨1, 3, 2⟩ : GammaCall Int) ≠ ⟨1, 2, 3⟩ :=
  ⟨fun _ _ _ _ _ => ⟨rfl, rfl⟩, by decide, by decide⟩

end IAHWC
